import Mathlib

/-!
Verification of the incremental upload orchestrator (tgfilebotter).

Shallow embedding of the Python sources under `src/uploader/`:
`json_builder.py`, `file_scanner.py`, `telegram_api.py`, `api_client.py`
and `uploader.py`.  Python strings are modelled as `List Char`
(`PyStr`), Python dicts holding the recursive folder structure as the
inductive type `Structure`, parsed JSON values as `Json`, and the
network as an oracle assigning an outcome to each HTTP request.
Depth-limited recursion in the source (an explicit `depth`/`max_depth`
pair) is modelled with a fuel argument equal to `max_depth - depth + 1`.
-/

namespace TgUp

/-- Python `str`, modelled as a list of characters. -/
abbrev PyStr := List Char

/-- Coerce a Lean string literal to the `PyStr` model. -/
def pystr (s : String) : PyStr := s.data

/-- The character `{` (written via its code point). -/
def lbrace : Char := Char.ofNat 123

/-- The character `}` (written via its code point). -/
def rbrace : Char := Char.ofNat 125

/-- Python `str.lower`, restricted to ASCII case mapping. -/
def pyLower (s : PyStr) : PyStr := s.map Char.toLower

/-- Whitespace characters stripped by Python `str.strip`. -/
def isPySpace (c : Char) : Bool :=
  c = ' ' || c = '\t' || c = '\n' || c = '\x0d' || c = '\x0b' || c = '\x0c'

/-- Python `str.strip` (ASCII whitespace). -/
def pyStrip (s : PyStr) : PyStr :=
  ((s.dropWhile isPySpace).reverse.dropWhile isPySpace).reverse

/-- `sub.isPrefixOf l` as a plain boolean function. -/
def listIsPrefix : PyStr → PyStr → Bool
  | [], _ => true
  | _ :: _, [] => false
  | a :: as, b :: bs => a = b && listIsPrefix as bs

/-- Python substring containment `sub in s`. -/
def containsSub (sub : PyStr) (s : PyStr) : Bool :=
  match s with
  | [] => listIsPrefix sub []
  | _ :: rest => listIsPrefix sub s || containsSub sub rest

/-- Case-insensitive substring containment (models `re.IGNORECASE` search
for a literal pattern, ASCII case folding). -/
def containsCI (sub : PyStr) (s : PyStr) : Bool :=
  containsSub (pyLower sub) (pyLower s)

/-- Python `str.replace(old, new)`, all non-overlapping occurrences left to
right.  The credential being replaced is never empty in this program, so the
empty-pattern case returns the string unchanged. -/
def pyReplaceFuel : Nat → PyStr → PyStr → PyStr → PyStr
  | 0, s, _, _ => s
  | fuel + 1, s, old, new =>
    match s with
    | [] => []
    | c :: rest =>
      if !old.isEmpty && listIsPrefix old s then
        new ++ pyReplaceFuel fuel (List.drop old.length s) old new
      else
        c :: pyReplaceFuel fuel rest old new

/-- Python `str.replace(old, new)`. -/
def pyReplace (s old new : PyStr) : PyStr := pyReplaceFuel s.length s old new

/-- Last-binding-wins lookup in an association list: this is the value a
Python dict holds for a key after all insertions were performed in order. -/
def lookupLast {α : Type} (k : PyStr) : List (PyStr × α) → Option α
  | [] => none
  | (k', v) :: rest =>
    match lookupLast k rest with
    | some r => some r
    | none => if k' = k then some v else none

/-- First-match lookup in an association list with unique keys. -/
def alookup {α : Type} (k : PyStr) : List (PyStr × α) → Option α
  | [] => none
  | (k', v) :: rest => if k' = k then some v else alookup k rest

/-- The keys of a Python dict built from the given insertions
(first-insertion order, each key once). -/
def keysOf {α : Type} (l : List (PyStr × α)) : List PyStr :=
  (l.map Prod.fst).dedup

/-- The Python dict built from a list of insertions, as an association
list with unique keys mapping to the last value written. -/
def dictOf (dflt : α) (l : List (PyStr × α)) : List (PyStr × α) :=
  (keysOf l).map (fun k => (k, (lookupLast k l).getD dflt))

/-- Decimal digits of a natural number. -/
def natToStr (n : Nat) : PyStr := (toString n).data

/-- Python `str` of an integer. -/
def intToStr (i : Int) : PyStr := (toString i).data

/-- UTF-8 byte length of one character. -/
def utf8Size (c : Char) : Nat :=
  if c.toNat ≤ 0x7F then 1
  else if c.toNat ≤ 0x7FF then 2
  else if c.toNat ≤ 0xFFFF then 3
  else 4

/-- UTF-8 byte length of a string (`len(s.encode('utf-8'))`). -/
def utf8Len (s : PyStr) : Nat := (s.map utf8Size).sum

/-- Upper-case hexadecimal digit. -/
def hexDigit (n : Nat) : Char :=
  if n < 10 then Char.ofNat ('0'.toNat + n) else Char.ofNat ('A'.toNat + n - 10)

/-- Four-digit lower-case hex, as produced by json.dumps `\uXXXX` escapes. -/
def hexDigitLower (n : Nat) : Char :=
  if n < 10 then Char.ofNat ('0'.toNat + n) else Char.ofNat ('a'.toNat + n - 10)

def hex4Lower (n : Nat) : PyStr :=
  [hexDigitLower (n / 4096 % 16), hexDigitLower (n / 256 % 16),
   hexDigitLower (n / 16 % 16), hexDigitLower (n % 16)]

/-- UTF-8 bytes of one character. -/
def utf8Bytes (c : Char) : List Nat :=
  let n := c.toNat
  if n ≤ 0x7F then [n]
  else if n ≤ 0x7FF then [0xC0 + n / 64, 0x80 + n % 64]
  else if n ≤ 0xFFFF then [0xE0 + n / 4096, 0x80 + n / 64 % 64, 0x80 + n % 64]
  else [0xF0 + n / 262144, 0x80 + n / 4096 % 64, 0x80 + n / 64 % 64, 0x80 + n % 64]

/-- Characters `urllib.parse.quote` leaves unescaped with the default
`safe='/'`: unreserved characters plus the slash. -/
def quoteSafe (c : Char) : Bool :=
  c.isAlphanum || c = '_' || c = '.' || c = '-' || c = '~' || c = '/'

/-- `urllib.parse.quote(s)`: percent-encode every unsafe character's UTF-8
bytes with upper-case hex. -/
def urlQuote (s : PyStr) : PyStr :=
  s.flatMap (fun c =>
    if quoteSafe c then [c]
    else (utf8Bytes c).flatMap (fun b => ['%', hexDigit (b / 16), hexDigit (b % 16)]))

/-! ### Parsed JSON values (the result of `json.loads`) -/

inductive Json where
  | null : Json
  | bool (b : Bool) : Json
  | num (n : Int) : Json
  | str (s : PyStr) : Json
  | arr (l : List Json) : Json
  | obj (l : List (PyStr × Json)) : Json
deriving Repr

namespace Json

/-- `d.get(k)` on a parsed JSON object; `None` when the value is not an
object or the key is absent.  Python dicts bind each key once; parsed JSON
keeps the last duplicate, which `lookupLast` reproduces. -/
def get (j : Json) (k : PyStr) : Option Json :=
  match j with
  | obj l => lookupLast k l
  | _ => none

/-- Python truthiness of a parsed JSON value. -/
def truthy : Json → Bool
  | null => false
  | bool b => b
  | num n => n != 0
  | str s => !s.isEmpty
  | arr l => !l.isEmpty
  | obj l => !l.isEmpty

/-- `k in d` for a parsed JSON object. -/
def hasKey (j : Json) (k : PyStr) : Bool := (j.get k).isSome

def isObj : Json → Bool
  | obj _ => true
  | _ => false

end Json

/-! ### `json.dumps` with its default arguments (`ensure_ascii=True`,
separators `", "` and `": "`), as used by `api_client.upload_metadata`. -/

/-- One character of a JSON string literal under `ensure_ascii`:
everything outside the printable ASCII range `0x20`–`0x7E` is escaped. -/
def dumpsEscapeChar (c : Char) : PyStr :=
  if c = '"' then ['\\', '"']
  else if c = '\\' then ['\\', '\\']
  else if c = '\n' then ['\\', 'n']
  else if c = '\x0d' then ['\\', 'r']
  else if c = '\t' then ['\\', 't']
  else if c = '\x08' then ['\\', 'b']
  else if c = '\x0c' then ['\\', 'f']
  else if 0x20 ≤ c.toNat && c.toNat ≤ 0x7E then [c]
  else if c.toNat ≤ 0xFFFF then '\\' :: 'u' :: hex4Lower c.toNat
  else
    ('\\' :: 'u' :: hex4Lower (0xD800 + (c.toNat - 0x10000) / 1024)) ++
    ('\\' :: 'u' :: hex4Lower (0xDC00 + (c.toNat - 0x10000) % 1024))

def dumpsEscape : PyStr → PyStr
  | [] => []
  | c :: rest => dumpsEscapeChar c ++ dumpsEscape rest

/-- A JSON string literal: `"` + escaped body + `"`. -/
def dumpsStr (s : PyStr) : PyStr := '"' :: dumpsEscape s ++ ['"']

/-- Join with a separator. -/
def joinSep (sep : PyStr) : List PyStr → PyStr
  | [] => []
  | [x] => x
  | x :: y :: rest => x ++ sep ++ joinSep sep (y :: rest)

mutual

def dumps : Json → PyStr
  | .null => pystr "null"
  | .bool true => pystr "true"
  | .bool false => pystr "false"
  | .num n => intToStr n
  | .str s => dumpsStr s
  | .arr l => '[' :: joinSep (pystr ", ") (dumpsArr l) ++ [']']
  | .obj l => lbrace :: joinSep (pystr ", ") (dumpsObj l) ++ [rbrace]

def dumpsArr : List Json → List PyStr
  | [] => []
  | j :: rest => dumps j :: dumpsArr rest

def dumpsObj : List (PyStr × Json) → List PyStr
  | [] => []
  | (k, v) :: rest => (dumpsStr k ++ pystr ": " ++ dumps v) :: dumpsObj rest

end

/-! ### `json_builder.py`: the tree structure and its operations -/

/-- One file dict as built by the scanner / codec.  Absent dict keys are
`none` (`false` for the transient `_skip_upload` flag). -/
structure FileInfo where
  fileName : PyStr
  filePath : Option PyStr := none
  fileSize : Option Nat := none
  fileId : Option PyStr := none
  messageId : Option Int := none
  relativePath : Option PyStr := none
  skip_upload : Bool := false
deriving Repr, DecidableEq

/-- The recursive folder dict: `files` list plus `subfolders` mapping
(a Python dict, modelled as an association list in insertion order). -/
inductive Structure where
  | node (files : List FileInfo) (subfolders : List (PyStr × Structure))
deriving Repr

instance : Inhabited Structure := ⟨.node [] []⟩

def Structure.files : Structure → List FileInfo
  | .node fs _ => fs

def Structure.subfolders : Structure → List (PyStr × Structure)
  | .node _ sf => sf

/-- Truthiness of an optional string dict value. -/
def optStrTruthy : Option PyStr → Bool
  | none => false
  | some s => !s.isEmpty

/-- Truthiness of an optional integer dict value. -/
def optIntTruthy : Option Int → Bool
  | none => false
  | some n => n != 0

/-- `JsonBuilder._validate_file_id`. -/
def validate_file_id (file_id : PyStr) (message_id : Int) : Bool :=
  if file_id.isEmpty then false
  else if file_id.length < 10 then false
  else if message_id ≤ 0 then false
  else true

/-- The error raised when the depth ceiling (`max_depth = 50`) is hit.
Recursion depth is modelled by fuel `= max_depth - depth + 1`; the source
checks `depth > max_depth` on entry, i.e. fuel `0`. -/
def depthErr : PyStr := pystr "Maximum structure depth (50) exceeded"

/-- Fuel corresponding to a top-level call with `depth = 0`, `max_depth = 50`. -/
def topFuel : Nat := 51

/-- One file of `JsonBuilder.clean_metadata_for_server`: validate the ids
when both are truthy, keep only `fileName`, `fileId`, `messageId`. -/
def cleanFile (f : FileInfo) : Except PyStr FileInfo :=
  if optStrTruthy f.fileId && optIntTruthy f.messageId &&
      !validate_file_id (f.fileId.getD []) (f.messageId.getD 0) then
    .error (pystr "Invalid file_id or message_id for " ++ f.fileName)
  else
    .ok { fileName := f.fileName, fileId := f.fileId, messageId := f.messageId }

def cleanFiles : List FileInfo → Except PyStr (List FileInfo)
  | [] => .ok []
  | f :: rest => do
    let c ← cleanFile f
    let cs ← cleanFiles rest
    pure (c :: cs)

mutual

/-- `JsonBuilder.clean_metadata_for_server` (depth limit as fuel). -/
def clean_metadata_for_server : Nat → Structure → Except PyStr Structure
  | 0, _ => .error depthErr
  | fuel + 1, .node files subs => do
    let cleanedFiles ← cleanFiles files
    let cleanedSubs ← cleanSubs fuel subs
    pure (.node cleanedFiles cleanedSubs)

def cleanSubs : Nat → List (PyStr × Structure) → Except PyStr (List (PyStr × Structure))
  | _, [] => .ok []
  | fuel, (name, sub) :: rest => do
    let c ← clean_metadata_for_server fuel sub
    let cs ← cleanSubs fuel rest
    pure ((name, c) :: cs)

end

/-- Relative-path join `f"{current_path}/{name}" if current_path else name`. -/
def joinPath (base name : PyStr) : PyStr :=
  if base.isEmpty then name else base ++ '/' :: name

/-- The files of one folder with their relative paths
(`files[file_path] = {**f, 'relativePath': file_path}`). -/
def filesWithPaths (base : PyStr) (files : List FileInfo) : List (PyStr × FileInfo) :=
  files.map (fun f =>
    let p := joinPath base f.fileName
    (p, { f with relativePath := some p }))

mutual

/-- `JsonBuilder._extract_files_with_paths`, returning the dict insertions
in traversal order (this folder's files, then each subfolder recursively);
the resulting Python dict is recovered with `dictOf`/`lookupLast`. -/
def extract_files_with_paths : Nat → PyStr → Structure → Except PyStr (List (PyStr × FileInfo))
  | 0, _, _ => .error depthErr
  | fuel + 1, base, .node files subs => do
    let rest ← extractSubs fuel base subs
    pure (filesWithPaths base files ++ rest)

def extractSubs : Nat → PyStr → List (PyStr × Structure) → Except PyStr (List (PyStr × FileInfo))
  | _, _, [] => .ok []
  | fuel, base, (name, sub) :: rest => do
    let l1 ← extract_files_with_paths fuel (joinPath base name) sub
    let l2 ← extractSubs fuel base rest
    pure (l1 ++ l2)

end

/-- A placeholder file value for total association-list lookups; never the
result of a lookup at a key that is present. -/
def dummyFile : FileInfo := { fileName := [] }

/-- Boolean membership of a path in a list of paths. -/
def pmem (p : PyStr) : List PyStr → Bool
  | [] => false
  | q :: rest => decide (q = p) || pmem p rest

/-- `d[path].get('fileSize', 0)`. -/
def sizeAt (m : List (PyStr × FileInfo)) (p : PyStr) : Nat :=
  ((alookup p m).getD dummyFile).fileSize.getD 0

/-- `d[path]`. -/
def entryAt (m : List (PyStr × FileInfo)) (p : PyStr) : FileInfo :=
  (alookup p m).getD dummyFile

structure ChangeSummary where
  added_count : Nat
  removed_count : Nat
  modified_count : Nat
  unchanged_count : Nat
  total_old : Nat
  total_new : Nat
deriving Repr, DecidableEq

structure Changes where
  added : List FileInfo
  removed : List FileInfo
  modified : List FileInfo
  unchanged : List FileInfo
  summary : ChangeSummary
deriving Repr, DecidableEq

/-- `added_paths = new_paths - old_paths`. -/
def addedPaths (oldRaw newRaw : List (PyStr × FileInfo)) : List PyStr :=
  (keysOf newRaw).filter (fun p => !pmem p (keysOf oldRaw))

/-- `removed_paths = old_paths - new_paths`. -/
def removedPaths (oldRaw newRaw : List (PyStr × FileInfo)) : List PyStr :=
  (keysOf oldRaw).filter (fun p => !pmem p (keysOf newRaw))

/-- `common_paths = old_paths & new_paths`. -/
def commonPaths (oldRaw newRaw : List (PyStr × FileInfo)) : List PyStr :=
  (keysOf oldRaw).filter (fun p => pmem p (keysOf newRaw))

/-- Common paths whose sizes differ. -/
def modifiedPaths (oldRaw newRaw : List (PyStr × FileInfo)) : List PyStr :=
  (commonPaths oldRaw newRaw).filter (fun p =>
    decide (sizeAt (dictOf dummyFile oldRaw) p ≠ sizeAt (dictOf dummyFile newRaw) p))

/-- Common paths whose sizes agree. -/
def unchangedPaths (oldRaw newRaw : List (PyStr × FileInfo)) : List PyStr :=
  (commonPaths oldRaw newRaw).filter (fun p =>
    decide (sizeAt (dictOf dummyFile oldRaw) p = sizeAt (dictOf dummyFile newRaw) p))

/-- The change set built from the two path maps. -/
def mkChanges (oldRaw newRaw : List (PyStr × FileInfo)) : Changes :=
  { added := (addedPaths oldRaw newRaw).map (entryAt (dictOf dummyFile newRaw))
    removed := (removedPaths oldRaw newRaw).map (entryAt (dictOf dummyFile oldRaw))
    modified := (modifiedPaths oldRaw newRaw).map (entryAt (dictOf dummyFile newRaw))
    unchanged := (unchangedPaths oldRaw newRaw).map (entryAt (dictOf dummyFile oldRaw))
    summary := {
      added_count := (addedPaths oldRaw newRaw).length
      removed_count := (removedPaths oldRaw newRaw).length
      modified_count := (modifiedPaths oldRaw newRaw).length
      unchanged_count := (unchangedPaths oldRaw newRaw).length
      total_old := (keysOf oldRaw).length
      total_new := (keysOf newRaw).length } }

/-- `JsonBuilder.compare_structures`.  Python iterates over sets whose
order is unspecified; the model fixes a deterministic order (filtering the
first-insertion key lists), which only affects list order, never
membership or the counts. -/
def compare_structures (old_structure new_structure : Structure) : Except PyStr Changes := do
  let oldRaw ← extract_files_with_paths topFuel [] old_structure
  let newRaw ← extract_files_with_paths topFuel [] new_structure
  pure (mkChanges oldRaw newRaw)

/-- `JsonBuilder.calculate_change_percentage` (float arithmetic modelled
exactly over ℚ). -/
def calculate_change_percentage (changes : Changes) : ℚ :=
  let base : ℚ := max (max changes.summary.total_old changes.summary.total_new) 1
  let changed : ℚ := changes.summary.added_count + changes.summary.removed_count +
    changes.summary.modified_count
  min (changed / base * 100) 100

/-- The per-path transformation `apply_ids` performs on a file found at
relative path `p`: copy the stored identifiers and set the skip flag when
`p` has stored ids and is listed unchanged. -/
def mergeTransform (ids : List (PyStr × (PyStr × Int))) (unchangedL : List FileInfo)
    (p : PyStr) (f : FileInfo) : FileInfo :=
  match alookup p ids with
  | some fm =>
    if unchangedL.any (fun uf => decide (uf.relativePath = some p)) then
      { f with fileId := some fm.1, messageId := some fm.2, skip_upload := true }
    else f
  | none => f

/-- The `existing_ids` map of `JsonBuilder.merge_with_existing`: paths of
the previous tree whose `fileId` and `messageId` are both truthy. -/
def existingIdsOf (existingRaw : List (PyStr × FileInfo)) : List (PyStr × (PyStr × Int)) :=
  (dictOf dummyFile existingRaw).filterMap (fun pi =>
    if optStrTruthy pi.2.fileId && optIntTruthy pi.2.messageId then
      some (pi.1, (pi.2.fileId.getD [], pi.2.messageId.getD 0))
    else none)

/-- One file of the nested `apply_ids`: copy the previous identifiers and
set `_skip_upload` when the path has stored ids and is in the `unchanged`
list. -/
def applyIdsFile (ids : List (PyStr × (PyStr × Int))) (unchangedL : List FileInfo)
    (base : PyStr) (f : FileInfo) : FileInfo :=
  let p := joinPath base f.fileName
  match alookup p ids with
  | some fm =>
    if unchangedL.any (fun uf => decide (uf.relativePath = some p)) then
      { f with fileId := some fm.1, messageId := some fm.2, skip_upload := true }
    else f
  | none => f

mutual

/-- The nested `apply_ids` of `JsonBuilder.merge_with_existing`
(depth limit as fuel). -/
def applyIds (ids : List (PyStr × (PyStr × Int))) (unchangedL : List FileInfo) :
    Nat → PyStr → Structure → Except PyStr Structure
  | 0, _, _ => .error depthErr
  | fuel + 1, base, .node files subs => do
    let subs' ← applyIdsSubs ids unchangedL fuel base subs
    pure (.node (files.map (applyIdsFile ids unchangedL base)) subs')

def applyIdsSubs (ids : List (PyStr × (PyStr × Int))) (unchangedL : List FileInfo) :
    Nat → PyStr → List (PyStr × Structure) → Except PyStr (List (PyStr × Structure))
  | _, _, [] => .ok []
  | fuel, base, (name, sub) :: rest => do
    let s' ← applyIds ids unchangedL fuel (joinPath base name) sub
    let rest' ← applyIdsSubs ids unchangedL fuel base rest
    pure ((name, s') :: rest')

end

/-- `JsonBuilder.merge_with_existing`. -/
def merge_with_existing (existing : Structure) (changes : Changes)
    (new_structure : Structure) : Except PyStr Structure := do
  let existingRaw ← extract_files_with_paths topFuel [] existing
  applyIds (existingIdsOf existingRaw) changes.unchanged topFuel [] new_structure

mutual

/-- `JsonBuilder.get_files_to_upload`: every file not flagged
`_skip_upload`, in traversal order. -/
def get_files_to_upload : Structure → List FileInfo
  | .node files subs => files.filter (fun f => !f.skip_upload) ++ uploadsOfSubs subs

def uploadsOfSubs : List (PyStr × Structure) → List FileInfo
  | [] => []
  | (_, sub) :: rest => get_files_to_upload sub ++ uploadsOfSubs rest

end

/-- `JsonBuilder.get_files_to_delete`: `removed + modified`. -/
def get_files_to_delete (changes : Changes) : List FileInfo :=
  changes.removed ++ changes.modified

/-- The file-list search of `JsonBuilder.update_file_ids`: first file whose
`filePath` or `relativePath` equals the target path gets the new ids. -/
def updateInFiles (file_path fid : PyStr) (mid : Int) :
    List FileInfo → Bool × List FileInfo
  | [] => (false, [])
  | f :: rest =>
    if decide (f.filePath = some file_path) || decide (f.relativePath = some file_path) then
      (true, { f with fileId := some fid, messageId := some mid } :: rest)
    else
      let r := updateInFiles file_path fid mid rest
      (r.1, f :: r.2)

mutual

/-- The recursive search of `JsonBuilder.update_file_ids`: this folder's
files first, then each subfolder in order, stopping at the first hit. -/
def updateSearch (file_path fid : PyStr) (mid : Int) : Structure → Bool × Structure
  | .node files subs =>
    let rf := updateInFiles file_path fid mid files
    if rf.1 then (true, .node rf.2 subs)
    else
      let rs := updateSearchSubs file_path fid mid subs
      (rs.1, .node files rs.2)

def updateSearchSubs (file_path fid : PyStr) (mid : Int) :
    List (PyStr × Structure) → Bool × List (PyStr × Structure)
  | [] => (false, [])
  | (name, sub) :: rest =>
    let rs := updateSearch file_path fid mid sub
    if rs.1 then (true, (name, rs.2) :: rest)
    else
      let rr := updateSearchSubs file_path fid mid rest
      (rr.1, (name, sub) :: rr.2)

end

/-- `JsonBuilder.update_file_ids`: validates the new ids (raising on
malformed ones), then searches and updates in place, returning whether the
path was found. -/
def update_file_ids (s : Structure) (file_path fid : PyStr) (mid : Int) :
    Except PyStr (Bool × Structure) :=
  if !validate_file_id fid mid then
    .error (pystr "Invalid file_id or message_id for " ++ file_path)
  else
    .ok (updateSearch file_path fid mid s)

/-- `JsonBuilder.from_json`, at the level of the parsed value
(`json.loads` is modelled as the identity on already-parsed `Json`). -/
def from_json (j : Json) : Except PyStr Json :=
  if !j.isObj then
    .error (pystr "Invalid JSON structure: expected object")
  else if !j.hasKey (pystr "subfolders") then
    .error (pystr "Invalid metadata: missing \"subfolders\" key")
  else if !j.hasKey (pystr "files") then
    .error (pystr "Invalid metadata: missing \"files\" key")
  else
    .ok j

/-- Encoding of one cleaned file dict as a parsed JSON value. -/
def fileToJson (f : FileInfo) : Json :=
  .obj [(pystr "fileName", .str f.fileName),
        (pystr "fileId", match f.fileId with | some s => .str s | none => .null),
        (pystr "messageId", match f.messageId with | some n => .num n | none => .null)]

mutual

/-- Encoding of a (cleaned) structure dict as a parsed JSON value, i.e.
`json.loads(json.dumps(structure))`. -/
def structureToJson : Structure → Json
  | .node files subs =>
    .obj [(pystr "files", .arr (files.map fileToJson)),
          (pystr "subfolders", .obj (subsToJson subs))]

def subsToJson : List (PyStr × Structure) → List (PyStr × Json)
  | [] => []
  | (name, sub) :: rest => (name, structureToJson sub) :: subsToJson rest

end

/-- Reading one parsed file dict the way `json_builder` accesses it
(via `.get` with the usual defaults). -/
def fileOfJson (j : Json) : FileInfo :=
  { fileName := match j.get (pystr "fileName") with | some (.str s) => s | _ => []
    filePath := match j.get (pystr "filePath") with | some (.str s) => some s | _ => none
    fileSize := match j.get (pystr "fileSize") with | some (.num n) => some n.toNat | _ => none
    fileId := match j.get (pystr "fileId") with | some (.str s) => some s | _ => none
    messageId := match j.get (pystr "messageId") with | some (.num n) => some n | _ => none
    relativePath := match j.get (pystr "relativePath") with | some (.str s) => some s | _ => none
    skip_upload := ((j.get (pystr "_skip_upload")).getD .null).truthy }

/-- Reading a parsed tree dict back into the typed model: the coercion
between the untyped dicts the Python code passes around and `Structure`
(`.get('files', [])` / `.get('subfolders', {})` access semantics). -/
def structureOfJson : Nat → Json → Structure
  | 0, _ => .node [] []
  | fuel + 1, j =>
    .node
      (match j.get (pystr "files") with
        | some (.arr l) => l.map fileOfJson
        | _ => [])
      (match j.get (pystr "subfolders") with
        | some (.obj l) => l.map (fun nv => (nv.1, structureOfJson fuel nv.2))
        | _ => [])

/-! ### `config.py` constants -/

/-- `MAX_FILE_SIZE = 2 * 1024 * 1024 * 1024` (2 GB). -/
def MAX_FILE_SIZE : Nat := 2 * 1024 * 1024 * 1024

/-! ### `file_scanner.py` -/

/-- Python word character for `\w` (`re.UNICODE` narrowed to ASCII in this
model; only ASCII names appear in the properties below). -/
def isWordChar (c : Char) : Bool := c.isAlphanum || c = '_'

/-- `\s* =`-suffix test: skip whitespace, then require `=`. -/
def wsStarEq : PyStr → Bool
  | [] => false
  | c :: r => if c = '=' then true else if isPySpace c then wsStarEq r else false

/-- After `on` and at least one word character: either `\s*=` matches here
or one more word character is consumed. -/
def afterWordPlus : PyStr → Bool
  | [] => false
  | c :: r => wsStarEq (c :: r) || (isWordChar c && afterWordPlus r)

/-- Match of `on\w+\s*=` at the head of the string (case-insensitive). -/
def onAttrAt : PyStr → Bool
  | c1 :: c2 :: c3 :: r =>
    c1.toLower = 'o' && c2.toLower = 'n' && isWordChar c3 && afterWordPlus r
  | _ => false

/-- `re.search` of `on\w+\s*=` with `re.IGNORECASE`. -/
def searchOnAttr : PyStr → Bool
  | [] => false
  | c :: r => onAttrAt (c :: r) || searchOnAttr r

/-- `}` appears before any newline (the `.*\}` part of `\$\{.*\}`,
`.` not matching a newline). -/
def closeBeforeNewline : PyStr → Bool
  | [] => false
  | c :: r => if c = rbrace then true else if c = '\n' then false else closeBeforeNewline r

/-- `re.search` of `\$\{.*\}`. -/
def searchTemplate : PyStr → Bool
  | [] => false
  | '$' :: c :: r => (c = lbrace && closeBeforeNewline (c :: r).tail) || searchTemplate (c :: r)
  | _ :: r => searchTemplate r

/-- `config.DANGEROUS_PATTERNS`: does any of the six patterns match? -/
def matchesDangerous (s : PyStr) : Bool :=
  containsCI (pystr "<script") s ||
  containsCI (pystr "javascript:") s ||
  searchOnAttr s ||
  (containsSub (pystr "../") s || containsSub (pystr "..\\") s) ||
  containsCI (pystr "__proto__") s ||
  searchTemplate s

/-- Character class `[^<>:"|?*\x00-\x1f]` of the folder-name pattern. -/
def folderCharOk (c : Char) : Bool :=
  !(c = '<' || c = '>' || c = ':' || c = '"' || c = '|' || c = '?' || c = '*' ||
    c.toNat ≤ 0x1f)

/-- `FileScanner.validate_folder_name`.  The final `re.match(^[...]+$)`
is modelled as "non-empty and all characters allowed": the name has been
stripped, so the `$`-before-trailing-newline subtlety cannot arise. -/
def validate_folder_name (name : PyStr) : Bool × Option PyStr :=
  if name.isEmpty || (pyStrip name).isEmpty then
    (false, some (pystr "Folder name is empty"))
  else
    let name := pyStrip name
    if 255 < name.length then
      (false, some (pystr "Folder name too long"))
    else if containsSub (pystr "..") name || containsSub (pystr "/") name ||
        containsSub (pystr "\\") name then
      (false, some (pystr "Path traversal characters not allowed"))
    else if matchesDangerous name then
      (false, some (pystr "Potentially dangerous characters detected"))
    else if !(name.all folderCharOk) then
      (false, some (pystr "Invalid characters in folder name"))
    else
      (true, none)

/-- `FileScanner.validate_file_name`. -/
def validate_file_name (name : PyStr) : Bool × Option PyStr :=
  if name.isEmpty || (pyStrip name).isEmpty then
    (false, some (pystr "File name is empty"))
  else
    let name := pyStrip name
    if 255 < name.length then
      (false, some (pystr "File name too long"))
    else if containsSub (pystr "..") name || containsSub (pystr "/") name ||
        containsSub (pystr "\\") name then
      (false, some (pystr "Path traversal characters not allowed"))
    else
      (true, none)

/-- Abstract filesystem entry for the scan: a readable file of known size
or a readable directory.  OS-level read failures (permission errors,
unreadable sizes) are not modelled; the scanned tree is given as data. -/
inductive FSNode where
  | file (size : Nat)
  | dir (entries : List (PyStr × FSNode))
deriving Repr

/-- The accumulating scanner log (`self.errors`, `self.warnings`,
`self.skipped_files`). -/
structure ScanLog where
  errors : List PyStr := []
  warnings : List PyStr := []
  skipped_files : List PyStr := []
deriving Repr, DecidableEq

/-- Lexicographic codepoint order on strings. -/
def pyStrLt : PyStr → PyStr → Bool
  | [], [] => false
  | [], _ :: _ => true
  | _ :: _, [] => false
  | a :: as, b :: bs => if a < b then true else if b < a then false else pyStrLt as bs

/-- Python `sorted(key=str.lower)` comparison (ASCII case folding,
codepoint order). -/
def lowerLe (a b : PyStr) : Bool :=
  !pyStrLt (pyLower b) (pyLower a)

/-- Insertion sort by `lowerLe` (stable, like Python's sort; only the
multiset of entries matters for the properties below). -/
def insertSorted (x : PyStr × FSNode) : List (PyStr × FSNode) → List (PyStr × FSNode)
  | [] => [x]
  | y :: ys => if lowerLe x.1 y.1 then x :: y :: ys else y :: insertSorted x ys

def sortEntries : List (PyStr × FSNode) → List (PyStr × FSNode)
  | [] => []
  | x :: xs => insertSorted x (sortEntries xs)

theorem sizeOf_insertSorted (x : PyStr × FSNode) (l : List (PyStr × FSNode)) :
    sizeOf (insertSorted x l) = 1 + sizeOf x + sizeOf l := by
  induction l with
  | nil => simp [insertSorted]
  | cons y ys ih =>
    by_cases h : lowerLe x.1 y.1
    · simp [insertSorted, h]
      try omega
    · simp [insertSorted, h, ih]
      try omega

theorem sizeOf_sortEntries (l : List (PyStr × FSNode)) :
    sizeOf (sortEntries l) = sizeOf l := by
  induction l with
  | nil => rfl
  | cons x xs ih => simp [sortEntries, sizeOf_insertSorted, ih]

/-- `os.path.join` (POSIX separator). -/
def osJoin (a b : PyStr) : PyStr := if a.isEmpty then b else a ++ '/' :: b

/-- Concatenation of log events (the scanner appends to shared lists; the
model emits each call's events and concatenates them in traversal order,
which yields the same final lists). -/
def ScanLog.append (a b : ScanLog) : ScanLog :=
  { errors := a.errors ++ b.errors, warnings := a.warnings ++ b.warnings,
    skipped_files := a.skipped_files ++ b.skipped_files }

mutual

/-- The entry loop of the nested `scan_folder` of
`FileScanner.scan_directory`, over already-sorted entries; returns the
folder's `files`/`subfolders` and the log events emitted, in traversal
order. -/
def scanEntries (folderPath relPath : PyStr) :
    List (PyStr × FSNode) → (List FileInfo × List (PyStr × Structure)) × ScanLog
  | [] => (([], []), {})
  | (entry, node) :: rest =>
    let entryPath := osJoin folderPath entry
    let entryRel := if relPath.isEmpty then entry else osJoin relPath entry
    match node with
    | .dir subEntries =>
      let v := validate_folder_name entry
      if !v.1 then
        let r := scanEntries folderPath relPath rest
        (r.1, { r.2 with errors :=
          (pystr "Invalid folder '" ++ entry ++ pystr "': " ++ (v.2.getD [])) :: r.2.errors })
      else
        let sub := scanFolder entryPath entryRel subEntries
        let r := scanEntries folderPath relPath rest
        ((r.1.1, (entry, sub.1) :: r.1.2), ScanLog.append sub.2 r.2)
    | .file size =>
      let v := validate_file_name entry
      if !v.1 then
        let r := scanEntries folderPath relPath rest
        (r.1, { r.2 with
          warnings := (pystr "Skipping file '" ++ entry ++ pystr "': " ++ (v.2.getD [])) :: r.2.warnings
          skipped_files := entryPath :: r.2.skipped_files })
      else if MAX_FILE_SIZE < size then
        let r := scanEntries folderPath relPath rest
        (r.1, { r.2 with
          warnings := (pystr "Skipping '" ++ entry ++ pystr "': exceeds 2GB limit") :: r.2.warnings
          skipped_files := entryPath :: r.2.skipped_files })
      else if size = 0 then
        let r := scanEntries folderPath relPath rest
        (r.1, { r.2 with
          warnings := (pystr "Skipping empty file: " ++ entry) :: r.2.warnings
          skipped_files := entryPath :: r.2.skipped_files })
      else
        let r := scanEntries folderPath relPath rest
        ((({ fileName := entry, filePath := some entryPath, fileSize := some size,
             relativePath := some entryRel } : FileInfo) :: r.1.1, r.1.2), r.2)
termination_by l => (sizeOf l, 0)
decreasing_by
  all_goals simp_wf
  all_goals omega

/-- The nested `scan_folder`: sort the entries, process them, return the
folder structure and the emitted log events. -/
def scanFolder (folderPath relPath : PyStr) (entries : List (PyStr × FSNode)) :
    Structure × ScanLog :=
  let r := scanEntries folderPath relPath (sortEntries entries)
  (.node r.1.1 r.1.2, r.2)
termination_by (sizeOf entries, 1)
decreasing_by
  simp only [sizeOf_sortEntries]
  exact Prod.Lex.right _ (by omega)

end

/-- `FileScanner.scan_directory` on an existing root directory (the
scanner state is freshly `reset`, so the emitted events are the final
lists). -/
def scan_directory (rootPath : PyStr) (entries : List (PyStr × FSNode)) :
    Structure × ScanLog :=
  scanFolder rootPath [] entries

mutual

/-- `FileScanner.get_all_files`. -/
def get_all_files : Structure → List FileInfo
  | .node files subs => files ++ allFilesOfSubs subs

def allFilesOfSubs : List (PyStr × Structure) → List FileInfo
  | [] => []
  | (_, sub) :: rest => get_all_files sub ++ allFilesOfSubs rest

end

/-! ### `telegram_api.py` -/

/-- The safe token prefix computed in `TelegramAPI.__init__`
(`bot_token[:4] + "..." + bot_token[10:12]` for tokens longer than 12). -/
def tokenPrefix (tok : PyStr) : PyStr :=
  if 12 < tok.length then tok.take 4 ++ pystr "..." ++ (tok.drop 10).take 2
  else pystr "****"

/-- `TelegramAPI._sanitize_error`: replace the raw token, then its
URL-encoded form, by the redacted prefix. -/
def sanitize_error (tok : PyStr) (msg : PyStr) : PyStr :=
  let redacted := tokenPrefix tok ++ pystr "****"
  let s1 := if containsSub tok msg then pyReplace msg tok redacted else msg
  let enc := urlQuote tok
  if containsSub enc s1 then pyReplace s1 enc redacted else s1

/-- The ordered `error_map` of `TelegramAPI._translate_error`. -/
def error_map : List (PyStr × PyStr) :=
  [(pystr "Bad Request: chat not found",
    pystr "Channel not found.\n\n✓ Check the channel ID is correct."),
   (pystr "Bad Request: have no rights",
    pystr "Bot lacks permissions.\n\n✓ Add bot as admin with posting rights."),
   (pystr "Bad Request: TOKEN_INVALID",
    pystr "Bot token is invalid or revoked."),
   (pystr "Bad Request: message is too long",
    pystr "File name is too long. Rename the file."),
   (pystr "Too Many Requests",
    pystr "Too many requests. Please wait and try again."),
   (pystr "Forbidden: bot was blocked by the user",
    pystr "Bot was blocked by user."),
   (pystr "Bad Request: CHAT_WRITE_FORBIDDEN",
    pystr "Bot cannot write to this channel.\n\n✓ Add bot as admin.")]

/-- `TelegramAPI._translate_error`: first matching substring wins. -/
def translate_error (desc : PyStr) : PyStr :=
  match error_map.find? (fun kv => containsSub kv.1 desc) with
  | some kv => kv.2
  | none => desc

/-- The `permanent_errors` list of `TelegramAPI.upload_file`. -/
def permanent_errors : List PyStr :=
  [pystr "not found", pystr "invalid token", pystr "forbidden",
   pystr "bot was blocked", pystr "chat not found", pystr "file_id",
   pystr "bad request: wrong file identifier",
   pystr "bad request: file is too big", pystr "unauthorized"]

/-- Outcome of one `requests.post` to `sendDocument`: the parsed reply, a
timeout, another `RequestException`, or any other exception (whose class
name ends up in the error text). -/
inductive NetOutcome where
  | reply (result : Json)
  | timeout
  | requestError (msg : PyStr)
  | otherError (excName : PyStr)

/-- The local-state inputs of `TelegramAPI.upload_file`:
`os.path.exists`, `os.path.getsize` and `os.path.basename`. -/
structure FileEnv where
  fileExists : Bool
  fileSize : Nat
  fileName : PyStr

/-- The dict `upload_file` returns, extended with the observable request
count and the sequence of `time.sleep` durations (in seconds). -/
structure UploadOutcomeT where
  success : Bool
  error : Option PyStr := none
  file_id : Option PyStr := none
  message_id : Option Int := none
  file_name : Option PyStr := none
  retry_after : Option Int := none
  requests : Nat := 0
  sleeps : List Int := []
deriving Repr, DecidableEq

def mkFail (err : PyStr) : UploadOutcomeT := { success := false, error := some err }

/-- `media[-1].get('file_id')` when the media value is a list, else
`media.get('file_id')`. -/
def fileIdFromMedia (media : Json) : Option Json :=
  match media with
  | .arr l => l.getLast?.bind (fun m => m.get (pystr "file_id"))
  | _ => media.get (pystr "file_id")

/-- The first truthy entry among `video`, `audio`, `photo`, `animation`. -/
def firstTruthyMedia (message : Json) : Option Json :=
  [pystr "video", pystr "audio", pystr "photo", pystr "animation"].findSome?
    (fun mt =>
      match message.get mt with
      | some m => if m.truthy then some m else none
      | none => none)

/-- The `file_id` extraction of `upload_file`: the document's id if
truthy, else the first truthy media entry's id, else the document value. -/
def extractFileId (message : Json) : Option Json :=
  let doc := (message.get (pystr "document")).getD (.obj [])
  let fid0 := doc.get (pystr "file_id")
  if (fid0.getD .null).truthy then fid0
  else
    match firstTruthyMedia message with
    | some m => fileIdFromMedia m
    | none => fid0

/-- The `ok` branch of `upload_file`: validates the extracted `file_id`
(string of length ≥ 10) and `message_id` (positive integer) before
declaring success.  Error texts keep the fixed prefix of the source's
f-strings. -/
def successOutcome (env : FileEnv) (message : Json) : UploadOutcomeT :=
  let fidJ := (extractFileId message).getD .null
  if !fidJ.truthy then
    mkFail (pystr "Failed to get file_id from Telegram response")
  else
    match fidJ with
    | .str s =>
      if s.length < 10 then mkFail (pystr "Invalid file_id format from Telegram")
      else
        match message.get (pystr "message_id") with
        | some (.num n) =>
          if n ≤ 0 then mkFail (pystr "Invalid message_id from Telegram")
          else { success := true, file_id := some s, message_id := some n,
                 file_name := some env.fileName }
        | _ => mkFail (pystr "Invalid message_id from Telegram")
    | _ => mkFail (pystr "Invalid file_id format from Telegram")

/-- `result.get('description', 'Upload failed')` (descriptions are
strings in every reply this API produces). -/
def replyDesc (result : Json) : PyStr :=
  match result.get (pystr "description") with
  | some (.str s) => s
  | _ => pystr "Upload failed"

/-- `result.get('parameters', {}).get('retry_after', 30)`. -/
def replyRetryAfter (result : Json) : Int :=
  match ((result.get (pystr "parameters")).getD (.obj [])).get (pystr "retry_after") with
  | some (.num n) => n
  | _ => 30

/-- The capped exponential backoff `min((2 ** attempt) * 5, 300)`. -/
def backoffWait (attempt : Nat) : Int := ((min ((2 ^ attempt) * 5) 300 : Nat) : Int)

/-- The retry loop of `TelegramAPI.upload_file`.  `reqIdx` numbers the
network requests against the oracle `resp`; `attempt` is the Python loop
variable and `fuel = max_retries - attempt` (so `attempt < max_retries - 1`
is `0 < fuel - 1`).  Each iteration issues exactly one request. -/
def uploadLoop (env : FileEnv) (resp : Nat → NetOutcome) :
    Nat → Nat → Nat → UploadOutcomeT
  | _, _, 0 => mkFail (pystr "Upload failed after all retries")
  | reqIdx, attempt, fuel + 1 =>
    let wait : Int := backoffWait attempt
    match resp reqIdx with
    | .reply result =>
      if ((result.get (pystr "ok")).getD .null).truthy then
        match result.get (pystr "result") with
        | some message =>
          let r := successOutcome env message
          { r with requests := r.requests + 1 }
        | none =>
          -- `result['result']` raises `KeyError`, caught by the generic handler
          { mkFail (pystr "Unexpected error: KeyError") with requests := 1 }
      else
        let error := replyDesc result
        let friendly := translate_error error
        let el := pyLower error
        if permanent_errors.any (fun pe => containsSub pe el) then
          { mkFail friendly with requests := 1 }
        else if containsSub (pystr "retry after") el then
          let ra := replyRetryAfter result
          if 0 < fuel then
            let r := uploadLoop env resp (reqIdx + 1) (attempt + 1) fuel
            { r with requests := r.requests + 1, sleeps := ra :: r.sleeps }
          else
            { success := false,
              error := some (pystr "Rate limited. Retry after " ++ intToStr ra ++ pystr "s"),
              retry_after := some ra, requests := 1 }
        else
          if 0 < fuel then
            let r := uploadLoop env resp (reqIdx + 1) (attempt + 1) fuel
            { r with requests := r.requests + 1, sleeps := wait :: r.sleeps }
          else
            { mkFail friendly with requests := 1 }
    | .timeout =>
      if 0 < fuel then
        let r := uploadLoop env resp (reqIdx + 1) (attempt + 1) fuel
        { r with requests := r.requests + 1, sleeps := wait :: r.sleeps }
      else
        { mkFail (pystr "Upload timed out. File may be too large or connection slow.")
            with requests := 1 }
    | .requestError _ =>
      if 0 < fuel then
        let r := uploadLoop env resp (reqIdx + 1) (attempt + 1) fuel
        { r with requests := r.requests + 1, sleeps := wait :: r.sleeps }
      else
        { mkFail (pystr "Network error. Please check your internet connection.")
            with requests := 1 }
    | .otherError excName =>
      { mkFail (pystr "Unexpected error: " ++ excName) with requests := 1 }

/-- `TelegramAPI.upload_file`: local preconditions (existence, size caps)
are checked before any network activity, then the retry loop runs.  Error
texts keep the fixed prefixes of the source's f-strings. -/
def upload_file (env : FileEnv) (resp : Nat → NetOutcome) (reqIdx : Nat)
    (max_retries : Nat := 3) : UploadOutcomeT :=
  if !env.fileExists then mkFail (pystr "File not found")
  else if MAX_FILE_SIZE < env.fileSize then
    mkFail (pystr "File too large")
  else if env.fileSize = 0 then mkFail (pystr "File is empty")
  else uploadLoop env resp reqIdx 0 max_retries

/-! ### `uploader.py` -/

/-- `Uploader._upload_with_retry` with `max_retries = 0` returns an
unbound local in Python (`UnboundLocalError`); this marker models that
never-taken exit. -/
def unboundResult : UploadOutcomeT := mkFail (pystr "UnboundLocalError: result")

/-- The loop of `Uploader._upload_with_retry`.  `fuel = max_retries -
attempt`; request and sleep counts aggregate across the layered calls of
`TelegramAPI.upload_file`.  The cancellation flag is modelled as constant
over the call. -/
def retryLoop (cancelled : Bool) (env : FileEnv) (resp : Nat → NetOutcome)
    (client_retries : Nat) : Nat → Nat → Nat → UploadOutcomeT
  | _, _, 0 => unboundResult
  | reqIdx, attempt, fuel + 1 =>
    if cancelled then { success := false, error := some (pystr "Cancelled") }
    else
      let result := upload_file env resp reqIdx client_retries
      if result.success then result
      else if optIntTruthy result.retry_after && 0 < fuel then
        let r := retryLoop cancelled env resp client_retries
          (reqIdx + result.requests) (attempt + 1) fuel
        { r with requests := r.requests + result.requests,
                 sleeps := result.sleeps ++ result.retry_after.getD 0 :: r.sleeps }
      else if 0 < fuel then
        let wait : Int := (attempt + 1) * 5
        let r := retryLoop cancelled env resp client_retries
          (reqIdx + result.requests) (attempt + 1) fuel
        { r with requests := r.requests + result.requests,
                 sleeps := result.sleeps ++ wait :: r.sleeps }
      else
        result

/-- `Uploader._upload_with_retry` (defaults: its own `max_retries = 3`,
the client's `max_retries = 3`). -/
def upload_with_retry (cancelled : Bool) (env : FileEnv) (resp : Nat → NetOutcome)
    (reqIdx : Nat) (max_retries : Nat := 3) (client_retries : Nat := 3) : UploadOutcomeT :=
  retryLoop cancelled env resp client_retries reqIdx 0 max_retries

/-- The per-run counters of `UploadResult` touched by Step 5 of
`Uploader.run`. -/
structure RunCounters where
  files_uploaded : Nat := 0
  files_failed : Nat := 0
  errors : List PyStr := []
deriving Repr, DecidableEq

/-- The success branch of Step 5 in `Uploader.run` (lines 238–246): write
the returned ids back into the merged tree — discarding the found/not-found
flag exactly as the source does — and count the file as uploaded. -/
def record_upload_success (s : Structure) (file_path fid : PyStr) (mid : Int)
    (counters : RunCounters) : Except PyStr (Structure × RunCounters) := do
  let r ← update_file_ids s file_path fid mid
  pure (r.2, { counters with files_uploaded := counters.files_uploaded + 1 })

/-! ### `api_client.py` -/

/-- `MAX_JSON_SIZE = 10 * 1024 * 1024` (local constant of
`APIClient.upload_metadata`). -/
def MAX_JSON_SIZE : Nat := 10 * 1024 * 1024

/-- Outcome of the `session.post` in `upload_metadata`: an HTTP response
(content type, status, `Retry-After` header after `int()` parsing, parsed
body), or one of the caught exceptions.  `jsonDecodeError` stands for a
JSON-typed response whose body fails to parse. -/
inductive HttpOutcome where
  | response (contentType : PyStr) (status : Nat) (retryAfterHeader : Option Int) (body : Json)
  | connError
  | timeout
  | jsonDecodeError
  | otherError (msg : PyStr)

/-- The dict returned by `APIClient.upload_metadata`. -/
structure ApiResult where
  success : Bool
  error : Option PyStr := none
  botId : Option Json := none
  status : Option Json := none
  message : Option Json := none
  isUpdate : Bool := false
  changePercentage : Option Json := none
  http_status : Option Nat := none
  retry_after : Option Int := none
  details : Option Json := none
deriving Repr

/-- The oversize rejection text (decimal formatting of the MB figures is
collapsed to whole megabytes in the model; only the fixed prefix is relied
upon). -/
def oversizeMsg (size : Nat) : PyStr :=
  pystr "Metadata too large (" ++ natToStr (size / (1024 * 1024)) ++
  pystr "MB). Maximum: 10MB"

/-- The request body `{'botToken': ..., 'channelId': ..., 'botUsername':
..., 'metadata': ...}`. -/
def payloadJson (botToken channelId botUsername : PyStr) (metadata : Json) : Json :=
  .obj [(pystr "botToken", .str botToken), (pystr "channelId", .str channelId),
        (pystr "botUsername", .str botUsername), (pystr "metadata", metadata)]

/-- Handling of the response / exceptions in `upload_metadata`, after the
request was sent. -/
def uploadMetadataResponse (payload_size : Nat) (net : HttpOutcome) : ApiResult :=
  match net with
  | .connError => { success := false, error := some (pystr "Cannot connect to server") }
  | .timeout => { success := false, error := some (pystr "Server request timed out") }
  | .jsonDecodeError => { success := false, error := some (pystr "Invalid response from server") }
  | .otherError m => { success := false, error := some (pystr "Error: " ++ m) }
  | .response ct status retryAfterHeader body =>
    if !listIsPrefix (pystr "application/json") ct then
      { success := false,
        error := some (pystr "Unexpected response type: " ++ ct ++
          pystr ". Server may have returned an error page.") }
    else if status = 413 then
      { success := false,
        error := some (pystr "Metadata too large (" ++
          natToStr (payload_size / (1024 * 1024)) ++ pystr "MB). Reduce folder structure.") }
    else if status = 429 then
      let ra := retryAfterHeader.getD 60
      { success := false,
        error := some (pystr "Rate limited. Retry after " ++ intToStr ra ++ pystr "s"),
        http_status := some 429, retry_after := some ra }
    else if status = 502 || status = 503 then
      { success := false, error := some (pystr "Server error " ++ natToStr status),
        http_status := some status }
    else if ((body.get (pystr "success")).getD .null).truthy then
      { success := true, botId := body.get (pystr "botId"),
        status := body.get (pystr "status"), message := body.get (pystr "message"),
        isUpdate := ((body.get (pystr "isUpdate")).getD .null).truthy,
        changePercentage := body.get (pystr "changePercentage") }
    else
      { success := false,
        error := match body.get (pystr "error") with
          | some (.str s) => some s
          | _ => some (pystr "Upload failed"),
        details := body.get (pystr "details") }

/-- The local `payload_size` computed by `upload_metadata` before sending
(lines 297–298): the UTF-8 byte length of the serialized payload. -/
def payload_size (botToken channelId botUsername : PyStr) (metadata : Json) : Nat :=
  utf8Len (dumps (payloadJson botToken channelId botUsername metadata))

/-- `APIClient.upload_metadata`: serialize the payload and check its UTF-8
size against `MAX_JSON_SIZE` **before** any network activity; the boolean
of the pair records whether `session.post` was executed. -/
def upload_metadata (botToken channelId botUsername : PyStr) (metadata : Json)
    (net : HttpOutcome) : ApiResult × Bool :=
  if MAX_JSON_SIZE < payload_size botToken channelId botUsername metadata then
    ({ success := false,
       error := some (oversizeMsg (payload_size botToken channelId botUsername metadata)) },
     false)
  else
    (uploadMetadataResponse (payload_size botToken channelId botUsername metadata) net, true)

/-- The URL `f"{self.status_url}/{bot_token}"` requested by
`APIClient.get_bot_status`: the credential is part of the URL, so
transport exceptions can embed it in their text. -/
def get_bot_status_url (statusUrl botToken : PyStr) : PyStr :=
  statusUrl ++ '/' :: botToken

/-- The `RequestException` handler of `APIClient.get_bot_status`
(line 219): the transport exception's text is embedded verbatim in the
returned error value, with no sanitization. -/
def get_bot_status_request_error (excText : PyStr) : PyStr :=
  pystr "Connection error: " ++ excText

/-! ### Spec-side definitions

Definitions written from the specification's words (not from the source),
named `spec...`, used to compare a spec requirement against the code. -/

mutual

/-- Modelled from the spec (claim C4's reading of `deserialize`): the
parsed value is an object containing both a `files` and a `subfolders`
key at every nesting level, where nesting is through the `subfolders`
mapping. -/
def specNestedValid : Json → Bool
  | .obj l =>
    (lookupLast (pystr "files") l).isSome &&
    (lookupLast (pystr "subfolders") l).isSome &&
    specNestedValidBindings l
  | _ => false

def specNestedValidBindings : List (PyStr × Json) → Bool
  | [] => true
  | (k, v) :: rest =>
    (if k = pystr "subfolders" then specNestedValidEntries v else true) &&
    specNestedValidBindings rest

def specNestedValidEntries : Json → Bool
  | .obj subs => specNestedValidList subs
  | _ => true

def specNestedValidList : List (PyStr × Json) → Bool
  | [] => true
  | (_, v) :: rest => specNestedValid v && specNestedValidList rest

end

/-! ### Concrete instances used by the claim theorems -/

/-- A nested exchange form whose inner level has neither key. -/
def badNest : Json :=
  .obj [(pystr "files", .arr []),
        (pystr "subfolders", .obj [(pystr "a", .obj [])])]

/-- A one-file local tree as produced by a scan and a successful first
run: `a.txt`, 100 bytes, with its remote identifiers written back. -/
def T1 : Structure :=
  .node [{ fileName := pystr "a.txt", filePath := some (pystr "/r/a.txt"),
           fileSize := some 100, fileId := some (pystr "ABCDEFGHIJKL"),
           messageId := some 7, relativePath := some (pystr "a.txt") }] []

/-- `T1`'s exchange form (what `clean_metadata_for_server` sends to the
index server): `fileSize` is stripped. -/
def T1clean : Structure :=
  .node [{ fileName := pystr "a.txt", fileId := some (pystr "ABCDEFGHIJKL"),
           messageId := some 7 }] []

/-- The diff `compare_structures` produces for previous = `T1clean`,
current = `T1`: `a.txt` is classified modified (old size read as 0). -/
def C1changes : Changes :=
  { added := [], removed := [],
    modified := [{ fileName := pystr "a.txt", filePath := some (pystr "/r/a.txt"),
                   fileSize := some 100, fileId := some (pystr "ABCDEFGHIJKL"),
                   messageId := some 7, relativePath := some (pystr "a.txt") }],
    unchanged := [],
    summary := { added_count := 0, removed_count := 0, modified_count := 1,
                 unchanged_count := 0, total_old := 1, total_new := 1 } }

/-- Classification of a network outcome the source treats as transient in
`upload_file`: a timeout, another request exception, or a non-ok reply
whose description matches no permanent marker and carries no rate-limit
signal. -/
def transientOutcome : NetOutcome → Bool
  | .reply result =>
    !((result.get (pystr "ok")).getD .null).truthy &&
    !(permanent_errors.any (fun pe => containsSub pe (pyLower (replyDesc result)))) &&
    !containsSub (pystr "retry after") (pyLower (replyDesc result))
  | .timeout => true
  | .requestError _ => true
  | .otherError _ => false

/-- Classification of a reply the source treats as permanent in
`upload_file`: non-ok with a description matching a permanent marker. -/
def permanentOutcome : NetOutcome → Bool
  | .reply result =>
    !((result.get (pystr "ok")).getD .null).truthy &&
    permanent_errors.any (fun pe => containsSub pe (pyLower (replyDesc result)))
  | _ => false

/-- A local file passing all of `upload_file`'s preconditions. -/
def goodEnv : FileEnv := { fileExists := true, fileSize := 100, fileName := pystr "a.txt" }

/-- The permanent-failure reply `{'ok': False, 'description': 'Bad
Request: chat not found'}`. -/
def chatNotFoundReply : Json :=
  .obj [(pystr "ok", .bool false),
        (pystr "description", .str (pystr "Bad Request: chat not found"))]

/-- A well-formed bot token (8 digits, a colon, 35 token characters). -/
def C7token : PyStr := pystr "12345678:AAAAAAAAAAAAAAAAAAAAAAAAAAAAAAAAAAA"

/-- The text of a `requests.exceptions.ConnectionError` raised while
requesting `get_bot_status`'s URL: the library embeds the request URL —
and with it the credential — in the exception text. -/
def C7exc : PyStr :=
  pystr "HTTPSConnectionPool(host='localhost', port=3000): Max retries exceeded with url: " ++
  get_bot_status_url (pystr "http://localhost:3000/api/bot-status") C7token

/-- An oversized metadata payload: a 10 MiB string value. -/
def C8bigMeta : Json := .str (List.replicate 10485760 'a')

/-- A previous tree for a merge run: one file `a.txt`, 100 bytes, with
stored remote identifiers. -/
def C6prev : Structure :=
  .node [{ fileName := pystr "a.txt", fileSize := some 100,
           fileId := some (pystr "ABCDEFGHIJKL"), messageId := some 7 }] []

/-- The current scan of the same content: `a.txt`, 100 bytes, no
identifiers yet. -/
def C6cur : Structure :=
  .node [{ fileName := pystr "a.txt", fileSize := some 100 }] []

/-- `C6prev`'s extracted path map. -/
def C6prevRaw : List (PyStr × FileInfo) :=
  [(pystr "a.txt",
    { fileName := pystr "a.txt", fileSize := some 100,
      fileId := some (pystr "ABCDEFGHIJKL"), messageId := some 7,
      relativePath := some (pystr "a.txt") })]

/-- `C6cur`'s extracted path map. -/
def C6curRaw : List (PyStr × FileInfo) :=
  [(pystr "a.txt",
    { fileName := pystr "a.txt", fileSize := some 100,
      relativePath := some (pystr "a.txt") })]

/-- The merged tree `merge_with_existing` produces: the unchanged file
inherits the stored identifiers and is flagged `_skip_upload`. -/
def C6merged : Structure :=
  .node [{ fileName := pystr "a.txt", fileSize := some 100,
           fileId := some (pystr "ABCDEFGHIJKL"), messageId := some 7,
           skip_upload := true }] []

/-! ## Theorems -/

/-! ### C10 — local precondition short-circuit in `upload_file` -/

/-- **C10.** For every call where the local path does not exist, the
file's size is 0, or the size exceeds `MAX_FILE_SIZE`, `upload_file`
returns an unsuccessful outcome immediately: no network request is issued
and no retry attempt (and no backoff sleep) is consumed. -/
theorem C10_upload_file_local_precondition_short_circuit
    (env : FileEnv) (resp : Nat → NetOutcome) (reqIdx max_retries : Nat)
    (h : env.fileExists = false ∨ env.fileSize = 0 ∨ MAX_FILE_SIZE < env.fileSize) :
    (upload_file env resp reqIdx max_retries).success = false ∧
    (upload_file env resp reqIdx max_retries).requests = 0 ∧
    (upload_file env resp reqIdx max_retries).sleeps = [] := by
  rcases h with h | h | h
  · simp [upload_file, h, mkFail]
  · rcases he : env.fileExists
    · simp [upload_file, he, mkFail]
    · have : ¬ MAX_FILE_SIZE < env.fileSize := by omega
      simp [upload_file, he, h, this, mkFail]
  · rcases he : env.fileExists
    · simp [upload_file, he, mkFail]
    · simp [upload_file, he, h, mkFail]

/-- Witness for C10 at a concrete input: a missing file is rejected with
zero requests. -/
theorem C10_witness :
    ({ fileExists := false, fileSize := 5, fileName := pystr "x" } : FileEnv).fileExists
        = false ∧
    ((upload_file { fileExists := false, fileSize := 5, fileName := pystr "x" }
        (fun _ => .timeout) 0 3).success = false ∧
      (upload_file { fileExists := false, fileSize := 5, fileName := pystr "x" }
        (fun _ => .timeout) 0 3).requests = 0 ∧
      (upload_file { fileExists := false, fileSize := 5, fileName := pystr "x" }
        (fun _ => .timeout) 0 3).sleeps = []) :=
  ⟨rfl, C10_upload_file_local_precondition_short_circuit _ _ 0 3 (Or.inl rfl)⟩

/-! ### C4 — deserialization validates only the top level -/

/-- **C4 counterexample.** `badNest` violates the both-keys-at-every-level
condition (its subfolder `a` is an object with neither key), yet
`from_json` returns it instead of failing: the claim's "any input
violating this at any level is rejected" is false on the code. -/
theorem C4_counterexample :
    from_json badNest = Except.ok badNest ∧ specNestedValid badNest = false :=
  ⟨rfl, rfl⟩

/-- **C4 (amended).** `from_json` validates only the top level: it returns
the parsed value exactly when that value is an object containing both a
`files` key and a `subfolders` key at the top level, and fails with a
format error otherwise; nested levels are not inspected. -/
theorem C4_from_json_top_level_validation (j : Json) :
    (from_json j = Except.ok j ↔
      (j.isObj && j.hasKey (pystr "subfolders") && j.hasKey (pystr "files")) = true) ∧
    ((j.isObj && j.hasKey (pystr "subfolders") && j.hasKey (pystr "files")) = false →
      ∃ msg, from_json j = Except.error msg) := by
  rcases h1 : j.isObj <;> rcases h2 : j.hasKey (pystr "subfolders") <;>
    rcases h3 : j.hasKey (pystr "files") <;>
    simp [from_json, h1, h2, h3]

/-- Witness for C4's amended theorem at a concrete input: the canonical
empty exchange form is accepted verbatim. -/
theorem C4_witness :
    from_json (.obj [(pystr "files", .arr []), (pystr "subfolders", .obj [])]) =
      Except.ok (.obj [(pystr "files", .arr []), (pystr "subfolders", .obj [])]) :=
  (C4_from_json_top_level_validation
    (.obj [(pystr "files", .arr []), (pystr "subfolders", .obj [])])).1.mpr rfl

/-! ### C5 — identifier write-back silently no-ops on a missing path -/

/-- **C5 (code bug).** A successful transfer whose `file_path` cannot be
located in the tree: `update_file_ids` reports `False`, and the success
branch of `Uploader.run` discards that flag, leaves the tree unchanged,
records no error, and still counts the file as uploaded — it does not fail
loudly as the claim requires. -/
theorem C5_missing_path_counted_as_uploaded :
    update_file_ids (.node [] []) (pystr "ghost.txt") (pystr "AAAAAAAAAAAA") 1 =
      Except.ok (false, .node [] []) ∧
    record_upload_success (.node [] []) (pystr "ghost.txt") (pystr "AAAAAAAAAAAA") 1 {} =
      Except.ok (.node [] [], { files_uploaded := 1 }) :=
  ⟨rfl, rfl⟩

/-! ### C1 — a no-op update run is not a no-op -/

/-- **C1 (code bug).** For the unchanged tree `T1`, the previous tree
obtained from its serialized-then-deserialized exchange form has no
`fileSize`, so `compare_structures` reads the old size as 0 and classifies
`a.txt` as **modified**: the diff is not empty, `changePercentage` is 100
(not 0), and the merged tree leaves `a.txt` pending transfer — a no-op
update run re-uploads everything instead of uploading nothing. -/
theorem C1_noop_update_run_reuploads :
    clean_metadata_for_server topFuel T1 = Except.ok T1clean ∧
    from_json (structureToJson T1clean) = Except.ok (structureToJson T1clean) ∧
    structureOfJson topFuel (structureToJson T1clean) = T1clean ∧
    compare_structures T1clean T1 = Except.ok C1changes ∧
    calculate_change_percentage C1changes = 100 ∧
    (merge_with_existing T1clean C1changes T1).map
        (fun m => (get_files_to_upload m).length) =
      Except.ok 1 := by
  refine ⟨rfl, rfl, rfl, rfl, ?_, rfl⟩
  norm_num [calculate_change_percentage, C1changes]

/-! ### C7 — the Index Client leaks the credential in error text -/

theorem containsSub_cons (sub : PyStr) (c : Char) (rest : PyStr)
    (h : containsSub sub rest = true) : containsSub sub (c :: rest) = true := by
  simp [containsSub, h]

theorem containsSub_append_left (sub pre e : PyStr)
    (h : containsSub sub e = true) : containsSub sub (pre ++ e) = true := by
  induction pre with
  | nil => simpa using h
  | cons c cs ih => simpa [List.cons_append] using containsSub_cons _ c _ ih

/-- **C7 counterexample.** A transport exception whose text embeds
`get_bot_status`'s request URL: the returned/displayed error text of the
Index Client contains the bot token as a substring — the claim that the
credential never appears in any returned error text is false on the
code. -/
theorem C7_counterexample :
    containsSub C7token (get_bot_status_request_error C7exc) = true := by decide

/-- **C7 (amended).** The Transfer Client's log paths go through
`_sanitize_error`, but the Index Client's `get_bot_status` builds its
connection-error outcome by embedding the transport exception text
verbatim (`f'Connection error: {str(e)}'`): whenever that text contains
the bot token — as it does when it embeds the request URL
`{status_url}/{bot_token}` — the returned error text contains the token
too. -/
theorem C7_get_bot_status_embeds_token (tok excText : PyStr)
    (h : containsSub tok excText = true) :
    containsSub tok (get_bot_status_request_error excText) = true :=
  containsSub_append_left tok _ excText h

/-- Witness for C7's amended theorem at the concrete exception text. -/
theorem C7_witness :
    containsSub C7token C7exc = true ∧
    containsSub C7token (get_bot_status_request_error C7exc) = true :=
  ⟨by decide, C7_get_bot_status_embeds_token C7token C7exc (by decide)⟩

/-! ### C8 — fail-fast on oversized payload -/

/-- **C8.** `upload_metadata` checks the UTF-8 size of the serialized
payload against `MAX_JSON_SIZE` locally: oversized payloads are rejected
with the local error and the request is never sent (`false`), while
payloads at or under the maximum always proceed to the network call
(`true`). -/
theorem C8_upload_metadata_size_precheck (botToken channelId botUsername : PyStr)
    (metadata : Json) (net : HttpOutcome) :
    (MAX_JSON_SIZE < payload_size botToken channelId botUsername metadata →
      upload_metadata botToken channelId botUsername metadata net =
        ({ success := false,
           error := some (oversizeMsg (payload_size botToken channelId botUsername metadata)) },
         false)) ∧
    (payload_size botToken channelId botUsername metadata ≤ MAX_JSON_SIZE →
      upload_metadata botToken channelId botUsername metadata net =
        (uploadMetadataResponse (payload_size botToken channelId botUsername metadata) net,
         true)) := by
  constructor <;> intro h
  · simp only [upload_metadata]
    rw [if_pos h]
  · simp only [upload_metadata]
    rw [if_neg (by omega)]

theorem dumpsEscapeChar_a : dumpsEscapeChar 'a' = ['a'] := rfl

theorem dumpsEscape_replicate_a (n : Nat) :
    dumpsEscape (List.replicate n 'a') = List.replicate n 'a' := by
  induction n with
  | zero => rfl
  | succ k ih => simp [List.replicate_succ, dumpsEscape, dumpsEscapeChar_a, ih]

theorem utf8Len_append (a b : PyStr) : utf8Len (a ++ b) = utf8Len a + utf8Len b := by
  simp [utf8Len]

theorem utf8Len_cons (c : Char) (l : PyStr) :
    utf8Len (c :: l) = utf8Size c + utf8Len l := by
  simp [utf8Len]

/-- The serialized size of the concrete payload depends on the metadata
string only through the length of its escaped form. -/
theorem payload_size_str (t c u s : PyStr) :
    payload_size t c u (.str s) =
      payload_size t c u (.str []) + utf8Len (dumpsEscape s) := by
  simp [payload_size, payloadJson, dumps, dumpsObj, dumpsStr, joinSep,
    utf8Len_append, utf8Len_cons, dumpsEscape]
  omega

theorem utf8Len_replicate_a (n : Nat) : utf8Len (List.replicate n 'a') = n := by
  induction n with
  | zero => rfl
  | succ k ih =>
    have ha : utf8Size 'a' = 1 := rfl
    rw [List.replicate_succ, utf8Len_cons, ha, ih]
    omega

theorem C8_big_size :
    payload_size (pystr "t") (pystr "c") (pystr "u") C8bigMeta = 10485831 := by
  have h := payload_size_str (pystr "t") (pystr "c") (pystr "u")
    (List.replicate 10485760 'a')
  rw [dumpsEscape_replicate_a, utf8Len_replicate_a] at h
  have h3 : payload_size (pystr "t") (pystr "c") (pystr "u") (.str []) = 71 := by decide
  rw [h3] at h
  exact h

/-- Witness for C8 at concrete inputs: the 10 MiB string payload is
rejected without a network call, the empty-object payload is sent. -/
theorem C8_witness :
    (upload_metadata (pystr "t") (pystr "c") (pystr "u") C8bigMeta .connError).2 = false ∧
    (upload_metadata (pystr "t") (pystr "c") (pystr "u") (.obj []) .connError).2 = true := by
  constructor
  · rw [(C8_upload_metadata_size_precheck (pystr "t") (pystr "c") (pystr "u")
      C8bigMeta .connError).1 (by rw [C8_big_size]; decide)]
  · rw [(C8_upload_metadata_size_precheck (pystr "t") (pystr "c") (pystr "u")
      (.obj []) .connError).2 (by decide)]

/-! ### C2, C3 — retry behaviour of the two layered upload loops -/

theorem backoff_cons_range (a k : Nat) :
    backoffWait a :: (List.range k).map (fun i => backoffWait (a + 1 + i)) =
      (List.range (k + 1)).map (fun i => backoffWait (a + i)) := by
  rw [List.range_succ_eq_map, List.map_cons, List.map_map]
  refine congrArg₂ _ (by rw [Nat.add_zero]) (List.map_congr_left ?_)
  intro x _
  simp only [Function.comp]
  congr 1
  omega

/-- A permanent reply short-circuits one pass of the client's retry loop:
exactly one request, no sleep, no rate-limit tag, failure. -/
theorem uploadLoop_permanent (env : FileEnv) (resp : Nat → NetOutcome)
    (h : ∀ i, permanentOutcome (resp i) = true) (fuel attempt reqIdx : Nat) :
    (uploadLoop env resp reqIdx attempt (fuel + 1)).success = false ∧
    (uploadLoop env resp reqIdx attempt (fuel + 1)).requests = 1 ∧
    (uploadLoop env resp reqIdx attempt (fuel + 1)).retry_after = none ∧
    (uploadLoop env resp reqIdx attempt (fuel + 1)).sleeps = [] := by
  have hp := h reqIdx
  rcases ho : resp reqIdx with result | _ | m | en <;> rw [ho] at hp <;>
    simp only [permanentOutcome, Bool.and_eq_true, Bool.not_eq_true',
      Bool.false_eq_true] at hp
  obtain ⟨hok, hperm⟩ := hp
  rw [uploadLoop.eq_2, ho]
  simp [hok, hperm, mkFail]

/-- Every transient outcome consumes the whole retry budget: one request
per attempt, capped exponential backoff between attempts, failure with no
rate-limit tag at the end. -/
theorem uploadLoop_transient (env : FileEnv) (resp : Nat → NetOutcome)
    (h : ∀ i, transientOutcome (resp i) = true) :
    ∀ fuel attempt reqIdx,
      (uploadLoop env resp reqIdx attempt fuel).success = false ∧
      (uploadLoop env resp reqIdx attempt fuel).requests = fuel ∧
      (uploadLoop env resp reqIdx attempt fuel).retry_after = none ∧
      (uploadLoop env resp reqIdx attempt fuel).sleeps =
        (List.range (fuel - 1)).map (fun i => backoffWait (attempt + i)) := by
  intro fuel
  induction fuel with
  | zero => intro attempt reqIdx; simp [uploadLoop, mkFail]
  | succ f ih =>
    intro attempt reqIdx
    have ht := h reqIdx
    rcases ho : resp reqIdx with result | _ | m | en <;> rw [ho] at ht
    · -- non-ok reply, neither permanent nor rate-limited
      simp only [transientOutcome, Bool.and_eq_true, Bool.not_eq_true'] at ht
      obtain ⟨⟨hok, hperm⟩, hra⟩ := ht
      rw [uploadLoop.eq_2, ho]
      rcases f with _ | f'
      · simp [hok, hperm, hra, mkFail]
      · obtain ⟨i1, i2, i3, i4⟩ := ih (attempt + 1) (reqIdx + 1)
        rw [Nat.add_sub_cancel] at i4
        simp only [hok, hperm, hra, Bool.false_eq_true, if_false,
          Nat.zero_lt_succ, if_true]
        refine ⟨i1, by rw [i2], i3, ?_⟩
        rw [Nat.add_sub_cancel, i4]
        exact backoff_cons_range attempt f'
    · -- timeout
      rw [uploadLoop.eq_2, ho]
      rcases f with _ | f'
      · simp [mkFail]
      · obtain ⟨i1, i2, i3, i4⟩ := ih (attempt + 1) (reqIdx + 1)
        rw [Nat.add_sub_cancel] at i4
        simp only [Nat.zero_lt_succ, if_true]
        refine ⟨i1, by rw [i2], i3, ?_⟩
        rw [Nat.add_sub_cancel, i4]
        exact backoff_cons_range attempt f'
    · -- request exception
      rw [uploadLoop.eq_2, ho]
      rcases f with _ | f'
      · simp [mkFail]
      · obtain ⟨i1, i2, i3, i4⟩ := ih (attempt + 1) (reqIdx + 1)
        rw [Nat.add_sub_cancel] at i4
        simp only [Nat.zero_lt_succ, if_true]
        refine ⟨i1, by rw [i2], i3, ?_⟩
        rw [Nat.add_sub_cancel, i4]
        exact backoff_cons_range attempt f'
    · -- other exceptions are not transient
      simp [transientOutcome] at ht

/-- When every client call fails without a rate-limit tag and costs `n`
requests, the orchestrator's per-file loop re-runs it on every iteration:
`fuel` iterations cost `fuel * n` requests and still fail. -/
theorem retryLoop_allfail (env : FileEnv) (resp : Nat → NetOutcome) (cr n : Nat)
    (hclient : ∀ k, (upload_file env resp k cr).success = false ∧
        (upload_file env resp k cr).retry_after = none ∧
        (upload_file env resp k cr).requests = n) :
    ∀ fuel attempt reqIdx,
      (retryLoop false env resp cr reqIdx attempt (fuel + 1)).success = false ∧
      (retryLoop false env resp cr reqIdx attempt (fuel + 1)).requests = (fuel + 1) * n := by
  intro fuel
  induction fuel with
  | zero =>
    intro attempt reqIdx
    obtain ⟨h1, h2, h3⟩ := hclient reqIdx
    rw [retryLoop.eq_2]
    simp [h1, h2, h3, optIntTruthy]
  | succ f ih =>
    intro attempt reqIdx
    obtain ⟨h1, h2, h3⟩ := hclient reqIdx
    obtain ⟨ih1, ih2⟩ := ih (attempt + 1) (reqIdx + (upload_file env resp reqIdx cr).requests)
    rw [retryLoop.eq_2]
    simp only [Bool.false_eq_true, if_false, h1, h2, optIntTruthy, Bool.false_and,
      Nat.zero_lt_succ, if_true]
    refine ⟨ih1, ?_⟩
    rw [ih2, h3]
    ring

/-- **C2 (amended).** A transfer whose every remote response reports a
permanent failure is attempted exactly once *per Transfer Client call* —
`upload_file`'s own retry loop never re-attempts it — but the
orchestrator's layered per-file retry (`_upload_with_retry`) does not
distinguish permanent failures and re-invokes the client after a backoff
on every iteration: over the whole run the transfer is attempted exactly
the orchestrator's `max_retries` (default 3) times, not once. -/
theorem C2_permanent_short_circuit_per_call_only (env : FileEnv)
    (resp : Nat → NetOutcome) (n m : Nat)
    (hex : env.fileExists = true) (hnz : env.fileSize ≠ 0)
    (hle : env.fileSize ≤ MAX_FILE_SIZE)
    (h : ∀ i, permanentOutcome (resp i) = true) :
    (∀ reqIdx, (upload_file env resp reqIdx (n + 1)).requests = 1 ∧
      (upload_file env resp reqIdx (n + 1)).success = false) ∧
    (upload_with_retry false env resp 0 (m + 1) (n + 1)).requests = m + 1 ∧
    (upload_with_retry false env resp 0 (m + 1) (n + 1)).success = false := by
  have hnlt : ¬ MAX_FILE_SIZE < env.fileSize := by omega
  have hcall : ∀ k, (upload_file env resp k (n + 1)).success = false ∧
      (upload_file env resp k (n + 1)).retry_after = none ∧
      (upload_file env resp k (n + 1)).requests = 1 := by
    intro k
    obtain ⟨c1, c2, c3, _⟩ := uploadLoop_permanent env resp h n 0 k
    simp only [upload_file, hex, Bool.not_true, Bool.false_eq_true, if_false,
      hnlt, if_false, hnz, if_false]
    exact ⟨c1, c3, c2⟩
  have hall := retryLoop_allfail env resp (n + 1) 1 hcall m 0 0
  refine ⟨fun reqIdx => ⟨(hcall reqIdx).2.2, (hcall reqIdx).1⟩, ?_, hall.1⟩
  rw [upload_with_retry, hall.2]
  ring

/-- **C2 counterexample.** With the default retry settings and a remote
that always answers "chat not found" (a permanent failure), the whole run
issues 3 requests for the transfer, not exactly one. -/
theorem C2_counterexample :
    (upload_with_retry false goodEnv (fun _ => .reply chatNotFoundReply) 0).requests = 3 ∧
    (upload_with_retry false goodEnv (fun _ => .reply chatNotFoundReply) 0).requests ≠ 1 := by
  constructor <;> decide

/-- Witness for C2's amended theorem at concrete inputs (defaults
`n + 1 = 3`, `m + 1 = 3`). -/
theorem C2_witness :
    (upload_file goodEnv (fun _ => .reply chatNotFoundReply) 0 3).requests = 1 ∧
    (upload_with_retry false goodEnv (fun _ => .reply chatNotFoundReply) 0 3 3).requests = 3 := by
  obtain ⟨hper, hrun, _⟩ := C2_permanent_short_circuit_per_call_only goodEnv
    (fun _ => .reply chatNotFoundReply) 2 2 rfl (by decide) (by decide)
    (fun _ => (by decide : permanentOutcome (.reply chatNotFoundReply) = true))
  exact ⟨(hper 0).1, hrun⟩

/-- **C3 (amended).** A transfer whose every attempt fails transiently is
attempted exactly `max_retries` times *per Transfer Client call*, with
capped exponential backoff `min((2 ** attempt) * 5, 300)` between the
attempts of one call — but over the whole run the orchestrator's layered
per-file retry re-invokes the client on each of its own `max_retries`
iterations, so the transfer is attempted `client max_retries ×
orchestrator max_retries` times in total (9 with the defaults), not
`max_retries` times. -/
theorem C3_retry_ceiling_per_call_only (env : FileEnv)
    (resp : Nat → NetOutcome) (n m : Nat)
    (hex : env.fileExists = true) (hnz : env.fileSize ≠ 0)
    (hle : env.fileSize ≤ MAX_FILE_SIZE)
    (h : ∀ i, transientOutcome (resp i) = true) :
    (∀ reqIdx, (upload_file env resp reqIdx n).requests = n ∧
      (upload_file env resp reqIdx n).success = false ∧
      (upload_file env resp reqIdx n).sleeps =
        (List.range (n - 1)).map (fun i => backoffWait i)) ∧
    (upload_with_retry false env resp 0 (m + 1) n).requests = (m + 1) * n ∧
    (upload_with_retry false env resp 0 (m + 1) n).success = false := by
  have hnlt : ¬ MAX_FILE_SIZE < env.fileSize := by omega
  have hcall : ∀ k, (upload_file env resp k n).success = false ∧
      (upload_file env resp k n).retry_after = none ∧
      (upload_file env resp k n).requests = n := by
    intro k
    obtain ⟨c1, c2, c3, _⟩ := uploadLoop_transient env resp h n 0 k
    simp only [upload_file, hex, Bool.not_true, Bool.false_eq_true, if_false,
      hnlt, if_false, hnz, if_false]
    exact ⟨c1, c3, c2⟩
  have hall := retryLoop_allfail env resp n n hcall m 0 0
  refine ⟨fun reqIdx => ?_, ?_, hall.1⟩
  · obtain ⟨c1, c2, c3, c4⟩ := uploadLoop_transient env resp h n 0 reqIdx
    simp only [upload_file, hex, Bool.not_true, Bool.false_eq_true, if_false,
      hnlt, if_false, hnz, if_false]
    refine ⟨c2, c1, ?_⟩
    rw [c4]
    exact List.map_congr_left (fun x _ => by rw [Nat.zero_add])
  · rw [upload_with_retry, hall.2]

/-- **C3 counterexample.** With the default retry settings and a remote
that always times out, the whole run issues 9 requests for the transfer,
not exactly `max_retries = 3`. -/
theorem C3_counterexample :
    (upload_with_retry false goodEnv (fun _ => .timeout) 0).requests = 9 ∧
    (upload_with_retry false goodEnv (fun _ => .timeout) 0).requests ≠ 3 := by
  constructor <;> decide

/-- Witness for C3's amended theorem at concrete inputs (defaults):
3 attempts with backoffs `[5, 10]` per client call, 9 over the run. -/
theorem C3_witness :
    (upload_file goodEnv (fun _ => .timeout) 0 3).requests = 3 ∧
    (upload_file goodEnv (fun _ => .timeout) 0 3).sleeps =
      (List.range 2).map (fun i => backoffWait i) ∧
    (upload_with_retry false goodEnv (fun _ => .timeout) 0 3 3).requests = 9 := by
  obtain ⟨hper, hrun, _⟩ := C3_retry_ceiling_per_call_only goodEnv
    (fun _ => .timeout) 3 2 rfl (by decide) (by decide)
    (fun _ => (by decide : transientOutcome .timeout = true))
  exact ⟨(hper 0).1, (hper 0).2.2, hrun⟩

/-! ### C9 — name validation subsumes path-traversal rejection -/

theorem listIsPrefix_iff (p l : PyStr) : listIsPrefix p l = true ↔ ∃ t, l = p ++ t := by
  induction p generalizing l with
  | nil => simp [listIsPrefix]
  | cons c cs ih =>
    cases l with
    | nil =>
      simp only [listIsPrefix, Bool.false_eq_true, false_iff]
      rintro ⟨t, h⟩
      simp at h
    | cons x xs =>
      simp only [listIsPrefix, Bool.and_eq_true, decide_eq_true_eq, ih, List.cons_append,
        List.cons.injEq]
      constructor
      · rintro ⟨rfl, t, rfl⟩
        exact ⟨t, rfl, rfl⟩
      · rintro ⟨t, rfl, rfl⟩
        exact ⟨rfl, t, rfl⟩

theorem containsSub_iff (sub l : PyStr) :
    containsSub sub l = true ↔ ∃ a b, l = a ++ sub ++ b := by
  induction l with
  | nil =>
    simp only [containsSub, listIsPrefix_iff]
    constructor
    · rintro ⟨t, h⟩
      exact ⟨[], t, by simpa using h⟩
    · rintro ⟨a, b, h⟩
      rw [List.append_assoc] at h
      obtain ⟨ha, hs⟩ := List.append_eq_nil.mp h.symm
      obtain ⟨hsub, hb⟩ := List.append_eq_nil.mp hs
      exact ⟨[], by simp [hsub]⟩
  | cons x xs ih =>
    simp only [containsSub, Bool.or_eq_true, listIsPrefix_iff, ih]
    constructor
    · rintro (⟨t, h⟩ | ⟨a, b, rfl⟩)
      · exact ⟨[], t, by simpa using h⟩
      · exact ⟨x :: a, b, by simp⟩
    · rintro ⟨a, b, h⟩
      cases a with
      | nil =>
        exact Or.inl ⟨b, by simpa using h⟩
      | cons y ys =>
        simp only [List.cons_append, List.cons.injEq] at h
        exact Or.inr ⟨ys, b, h.2⟩

theorem containsSub_reverse (sub l : PyStr) :
    containsSub sub.reverse l.reverse = containsSub sub l := by
  have key : ∀ (s t : PyStr), containsSub s t = true →
      containsSub s.reverse t.reverse = true := by
    intro s t h
    obtain ⟨a, b, rfl⟩ := (containsSub_iff _ _).mp h
    refine (containsSub_iff _ _).mpr ⟨b.reverse, a.reverse, ?_⟩
    simp [List.reverse_append, List.append_assoc]
  rcases h1 : containsSub sub l
  · rcases h2 : containsSub sub.reverse l.reverse
    · rfl
    · have h3 := key _ _ h2
      simp only [List.reverse_reverse] at h3
      rw [h1] at h3
      exact h3.symm
  · exact key _ _ h1

theorem containsSub_dropWhile (c : Char) (cs s : PyStr)
    (hc : isPySpace c = false) (h : containsSub (c :: cs) s = true) :
    containsSub (c :: cs) (s.dropWhile isPySpace) = true := by
  induction s with
  | nil => simp [containsSub, listIsPrefix] at h
  | cons x xs ih =>
    rcases hx : isPySpace x
    · simpa [List.dropWhile, hx] using h
    · rw [List.dropWhile_cons_of_pos (by simp [hx])]
      apply ih
      simp only [containsSub, Bool.or_eq_true] at h
      rcases h with h | h
      · exfalso
        simp only [listIsPrefix, Bool.and_eq_true, decide_eq_true_eq] at h
        rw [h.1] at hc
        rw [hc] at hx
        exact Bool.false_ne_true hx
      · exact h

theorem containsSub_pyStrip (c : Char) (cs : PyStr) (d : Char) (ds : PyStr) (s : PyStr)
    (hrev : (c :: cs).reverse = d :: ds)
    (hc : isPySpace c = false) (hd : isPySpace d = false)
    (h : containsSub (c :: cs) s = true) :
    containsSub (c :: cs) (pyStrip s) = true := by
  have h1 : containsSub (c :: cs) (s.dropWhile isPySpace) = true :=
    containsSub_dropWhile c cs s hc h
  have h2 : containsSub (d :: ds) (s.dropWhile isPySpace).reverse = true := by
    rw [← hrev, containsSub_reverse]
    exact h1
  have h3 := containsSub_dropWhile d ds _ hd h2
  have h5 : (d :: ds).reverse = c :: cs := by
    rw [← hrev, List.reverse_reverse]
  rw [pyStrip, ← h5, containsSub_reverse]
  exact h3


/-- The three traversal patterns of the claim. -/
def hasTraversal (name : PyStr) : Bool :=
  containsSub (pystr "..") name || containsSub (pystr "/") name ||
  containsSub (pystr "\\") name

theorem hasTraversal_pyStrip (name : PyStr) (h : hasTraversal name = true) :
    hasTraversal (pyStrip name) = true := by
  simp only [hasTraversal, Bool.or_eq_true] at h ⊢
  rcases h with (h | h) | h
  · exact Or.inl (Or.inl (containsSub_pyStrip '.' ['.'] '.' ['.'] name rfl rfl rfl h))
  · exact Or.inl (Or.inr (containsSub_pyStrip '/' [] '/' [] name rfl rfl rfl h))
  · exact Or.inr (containsSub_pyStrip '\\' [] '\\' [] name rfl rfl rfl h)

theorem validate_folder_name_rejects_traversal (name : PyStr)
    (h : hasTraversal name = true) : (validate_folder_name name).1 = false := by
  by_cases he : (name.isEmpty || (pyStrip name).isEmpty) = true
  · simp [validate_folder_name, he]
  · have hs := hasTraversal_pyStrip name h
    simp only [hasTraversal] at hs
    by_cases hlen : 255 < (pyStrip name).length
    · simp [validate_folder_name, he, hlen]
    · simp [validate_folder_name, he, hlen, hs]

theorem validate_file_name_rejects_traversal (name : PyStr)
    (h : hasTraversal name = true) : (validate_file_name name).1 = false := by
  by_cases he : (name.isEmpty || (pyStrip name).isEmpty) = true
  · simp [validate_file_name, he]
  · have hs := hasTraversal_pyStrip name h
    simp only [hasTraversal] at hs
    by_cases hlen : 255 < (pyStrip name).length
    · simp [validate_file_name, he, hlen]
    · simp [validate_file_name, he, hlen, hs]

theorem mem_insertSorted (x y : PyStr × FSNode) (l : List (PyStr × FSNode)) :
    y ∈ insertSorted x l ↔ y = x ∨ y ∈ l := by
  induction l with
  | nil => simp [insertSorted]
  | cons z zs ih =>
    by_cases hle : lowerLe x.1 z.1
    · simp [insertSorted, hle]
    · simp [insertSorted, hle, ih]
      tauto

theorem mem_sortEntries (y : PyStr × FSNode) (l : List (PyStr × FSNode)) :
    y ∈ sortEntries l ↔ y ∈ l := by
  induction l with
  | nil => simp [sortEntries]
  | cons z zs ih => simp [sortEntries, mem_insertSorted, ih]

/-- Every file and subfolder the entry loop keeps has a name its validator
accepted. -/
theorem scanEntries_validated (fp rp : PyStr) (l : List (PyStr × FSNode)) :
    (∀ f ∈ (scanEntries fp rp l).1.1, (validate_file_name f.fileName).1 = true) ∧
    (∀ p ∈ (scanEntries fp rp l).1.2, (validate_folder_name p.1).1 = true) := by
  induction l with
  | nil =>
    constructor <;> intro x hx <;> simp [scanEntries] at hx
  | cons hd rest ih =>
    obtain ⟨name, node⟩ := hd
    rcases node with size | subEntries
    · -- file entry
      simp only [scanEntries]
      by_cases hv : (validate_file_name name).1 = true
      · simp only [hv, Bool.not_true, Bool.false_eq_true, if_false]
        by_cases h1 : MAX_FILE_SIZE < size
        · simpa [h1] using ih
        · by_cases h2 : size = 0
          · simpa [h1, h2] using ih
          · simp only [h1, if_false, h2, if_false]
            refine ⟨?_, ih.2⟩
            intro f hf
            rcases List.mem_cons.mp hf with rfl | hf
            · exact hv
            · exact ih.1 f hf
      · simp only [Bool.not_eq_true] at hv
        simpa [hv] using ih
    · -- directory entry
      simp only [scanEntries]
      by_cases hv : (validate_folder_name name).1 = true
      · simp only [hv, Bool.not_true, Bool.false_eq_true, if_false]
        refine ⟨ih.1, ?_⟩
        intro p hp
        rcases List.mem_cons.mp hp with rfl | hp
        · exact hv
        · exact ih.2 p hp
      · simp only [Bool.not_eq_true] at hv
        simpa [hv] using ih

theorem containsSub_self_append (s t : PyStr) : containsSub s (s ++ t) = true := by
  rcases s with _ | ⟨c, cs⟩
  · cases t <;> simp [containsSub, listIsPrefix]
  · exact (containsSub_iff _ _).mpr ⟨[], t, by simp⟩

/-- Processing one more (earlier) entry only adds log events: the rest's
errors and warnings survive. -/
theorem scanEntries_cons_log_superset (fp rp : PyStr) (hd : PyStr × FSNode)
    (rest : List (PyStr × FSNode)) :
    (∀ e ∈ (scanEntries fp rp rest).2.errors, e ∈ (scanEntries fp rp (hd :: rest)).2.errors) ∧
    (∀ w ∈ (scanEntries fp rp rest).2.warnings,
      w ∈ (scanEntries fp rp (hd :: rest)).2.warnings) := by
  obtain ⟨ename, enode⟩ := hd
  rcases enode with size | subEntries
  · simp only [scanEntries]
    by_cases hv : (validate_file_name ename).1 = true
    · simp only [hv, Bool.not_true, Bool.false_eq_true, if_false]
      by_cases h1 : MAX_FILE_SIZE < size
      · simp only [h1, if_true]
        exact ⟨fun e he => he, fun w hw => List.mem_cons_of_mem _ hw⟩
      · simp only [h1, if_false]
        by_cases h2 : size = 0
        · simp only [h2, if_pos rfl]
          exact ⟨fun e he => he, fun w hw => List.mem_cons_of_mem _ hw⟩
        · simp only [if_neg h2]
          exact ⟨fun e he => he, fun w hw => hw⟩
    · simp only [Bool.not_eq_true] at hv
      simp only [hv, Bool.not_false, if_true]
      exact ⟨fun e he => he, fun w hw => List.mem_cons_of_mem _ hw⟩
  · simp only [scanEntries]
    by_cases hv : (validate_folder_name ename).1 = true
    · simp only [hv, Bool.not_true, Bool.false_eq_true, if_false, ScanLog.append]
      exact ⟨fun e he => List.mem_append_right _ he, fun w hw => List.mem_append_right _ hw⟩
    · simp only [Bool.not_eq_true] at hv
      simp only [hv, Bool.not_false, if_true]
      exact ⟨fun e he => List.mem_cons_of_mem _ he, fun w hw => hw⟩

/-- A rejected entry leaves its trace: an error mentioning the folder name
or a warning mentioning the file name. -/
theorem scanEntries_bad_logs (fp rp : PyStr) (l : List (PyStr × FSNode))
    (name : PyStr) (node : FSNode) (hmem : (name, node) ∈ l)
    (hbad : hasTraversal name = true) :
    (∀ subEntries, node = .dir subEntries →
      ∃ e ∈ (scanEntries fp rp l).2.errors, containsSub name e = true) ∧
    (∀ size, node = .file size →
      ∃ w ∈ (scanEntries fp rp l).2.warnings, containsSub name w = true) := by
  induction l with
  | nil => simp at hmem
  | cons hd rest ih =>
    rcases List.mem_cons.mp hmem with heq | hmem'
    · -- the bad entry is at the head
      obtain ⟨ename, enode⟩ := hd
      injection heq with h1 h2
      subst h1
      subst h2
      rcases node with size | subEntries
      · -- a file: rejected with a warning embedding the name
        have hv := validate_file_name_rejects_traversal name hbad
        refine ⟨fun s hs => FSNode.noConfusion hs, fun s hs => ?_⟩
        simp only [scanEntries, hv, Bool.not_false, if_true]
        refine ⟨pystr "Skipping file '" ++ name ++ pystr "': " ++
          ((validate_file_name name).2.getD []), List.mem_cons_self _ _, ?_⟩
        exact (containsSub_iff _ _).mpr
          ⟨pystr "Skipping file '", pystr "': " ++ ((validate_file_name name).2.getD []),
           by simp [List.append_assoc]⟩
      · -- a folder: rejected with an error embedding the name
        have hv := validate_folder_name_rejects_traversal name hbad
        refine ⟨fun s hs => ?_, fun s hs => FSNode.noConfusion hs⟩
        simp only [scanEntries, hv, Bool.not_false, if_true]
        refine ⟨pystr "Invalid folder '" ++ name ++ pystr "': " ++
          ((validate_folder_name name).2.getD []), List.mem_cons_self _ _, ?_⟩
        exact (containsSub_iff _ _).mpr
          ⟨pystr "Invalid folder '", pystr "': " ++ ((validate_folder_name name).2.getD []),
           by simp [List.append_assoc]⟩
    · -- the bad entry is further down the list
      obtain ⟨ihd, ihf⟩ := ih hmem'
      obtain ⟨supE, supW⟩ := scanEntries_cons_log_superset fp rp hd rest
      refine ⟨fun s hs => ?_, fun s hs => ?_⟩
      · obtain ⟨e, he, hce⟩ := ihd s hs
        exact ⟨e, supE e he, hce⟩
      · obtain ⟨w, hw, hcw⟩ := ihf s hs
        exact ⟨w, supW w hw, hcw⟩

/-- **C9.** Name validation is strictly stronger than path-traversal
rejection: every file or folder name containing `..` anywhere (even with
no adjacent separator), or containing `/` or `\`, is rejected by both
validators; during a scan such a name never appears among the produced
files or subfolders, and the scan records an error (for a folder) or a
warning (for a file) that mentions the name. -/
theorem C9_traversal_names_rejected (name : PyStr) (hbad : hasTraversal name = true) :
    (validate_folder_name name).1 = false ∧
    (validate_file_name name).1 = false ∧
    (∀ fp rp entries node, (name, node) ∈ entries →
      (∀ f ∈ (scanFolder fp rp entries).1.files, f.fileName ≠ name) ∧
      (∀ p ∈ (scanFolder fp rp entries).1.subfolders, p.1 ≠ name) ∧
      (∀ subEntries, node = .dir subEntries →
        ∃ e ∈ (scanFolder fp rp entries).2.errors, containsSub name e = true) ∧
      (∀ size, node = .file size →
        ∃ w ∈ (scanFolder fp rp entries).2.warnings, containsSub name w = true)) := by
  refine ⟨validate_folder_name_rejects_traversal name hbad,
    validate_file_name_rejects_traversal name hbad, ?_⟩
  intro fp rp entries node hmem
  have hmem' : (name, node) ∈ sortEntries entries := (mem_sortEntries _ _).mpr hmem
  obtain ⟨hvf, hvd⟩ := scanEntries_validated fp rp (sortEntries entries)
  obtain ⟨hle, hlw⟩ := scanEntries_bad_logs fp rp (sortEntries entries) name node hmem' hbad
  rw [scanFolder]
  refine ⟨?_, ?_, hle, hlw⟩
  · intro f hf hfn
    have := hvf f hf
    rw [hfn, validate_file_name_rejects_traversal name hbad] at this
    exact Bool.false_ne_true this
  · intro p hp hpn
    have := hvd p hp
    rw [hpn, validate_folder_name_rejects_traversal name hbad] at this
    exact Bool.false_ne_true this

/-- Witness for C9 at a concrete scan: a directory containing
`bad..dir` (a folder) and `e..txt` (a file). -/
theorem C9_witness :
    hasTraversal (pystr "e..txt") = true ∧
    (validate_file_name (pystr "e..txt")).1 = false ∧
    (∀ f ∈ (scanFolder (pystr "/r") []
        [(pystr "bad..dir", .dir []), (pystr "e..txt", .file 5)]).1.files,
      f.fileName ≠ pystr "e..txt") ∧
    (∃ w ∈ (scanFolder (pystr "/r") []
        [(pystr "bad..dir", .dir []), (pystr "e..txt", .file 5)]).2.warnings,
      containsSub (pystr "e..txt") w = true) := by
  have h := C9_traversal_names_rejected (pystr "e..txt") (by decide)
  have hmain := h.2.2 (pystr "/r") []
    [(pystr "bad..dir", .dir []), (pystr "e..txt", .file 5)] (.file 5)
    (List.mem_cons_of_mem _ (List.mem_cons_self _ _))
  exact ⟨by decide, h.2.1, hmain.1, hmain.2.2.2 5 rfl⟩


/-! ### C6 — merge preserves identity -/

theorem ok_bind {β γ : Type} (a : β) (f : β → Except PyStr γ) :
    (Except.ok a >>= f : Except PyStr γ) = f a := rfl

theorem error_bind {β γ : Type} (e : PyStr) (f : β → Except PyStr γ) :
    (Except.error e >>= f : Except PyStr γ) = Except.error e := rfl

theorem map_ok {β γ : Type} (g : β → γ) (a : β) :
    (g <$> (Except.ok a : Except PyStr β) : Except PyStr γ) = Except.ok (g a) := rfl

theorem map_error {β γ : Type} (g : β → γ) (e : PyStr) :
    (g <$> (Except.error e : Except PyStr β) : Except PyStr γ) = Except.error e := rfl

theorem pmem_iff (p : PyStr) (l : List PyStr) : pmem p l = true ↔ p ∈ l := by
  induction l with
  | nil => simp [pmem]
  | cons q rest ih =>
    simp only [pmem, Bool.or_eq_true, decide_eq_true_eq, ih, List.mem_cons]
    constructor
    · rintro (rfl | h)
      · exact Or.inl rfl
      · exact Or.inr h
    · rintro (rfl | h)
      · exact Or.inl rfl
      · exact Or.inr h

theorem lookupLast_mem {α : Type} (p : PyStr) (l : List (PyStr × α)) (v : α)
    (h : lookupLast p l = some v) : (p, v) ∈ l := by
  induction l with
  | nil => cases h
  | cons kv rest ih =>
    obtain ⟨k, w⟩ := kv
    simp only [lookupLast] at h
    cases hr : lookupLast p rest with
    | some r =>
      rw [hr] at h
      injection h with h
      subst h
      exact List.mem_cons_of_mem _ (ih hr)
    | none =>
      rw [hr] at h
      by_cases hk : k = p
      · rw [if_pos hk] at h
        injection h with h
        subst h
        subst hk
        exact List.mem_cons_self _ _
      · rw [if_neg hk] at h
        cases h

theorem lookupLast_isSome_iff {α : Type} (p : PyStr) (l : List (PyStr × α)) :
    (lookupLast p l).isSome = true ↔ p ∈ l.map Prod.fst := by
  induction l with
  | nil => simp [lookupLast]
  | cons kv rest ih =>
    obtain ⟨k, w⟩ := kv
    simp only [lookupLast, List.map_cons, List.mem_cons]
    cases hr : lookupLast p rest with
    | some r =>
      rw [hr] at ih
      simp only [Option.isSome_some, true_iff] at ih
      simp only [Option.isSome_some, true_iff]
      exact Or.inr ih
    | none =>
      rw [hr] at ih
      simp only [Option.isSome_none, Bool.false_eq_true, false_iff] at ih
      by_cases hk : k = p
      · subst hk
        rw [if_pos rfl]
        exact ⟨fun _ => Or.inl rfl, fun _ => rfl⟩
      · rw [if_neg hk]
        simp only [Option.isSome_none, Bool.false_eq_true, false_iff]
        rintro (rfl | h)
        · exact hk rfl
        · exact ih h

theorem mem_keysOf {α : Type} (p : PyStr) (l : List (PyStr × α)) :
    p ∈ keysOf l ↔ p ∈ l.map Prod.fst := List.mem_dedup

theorem lookupLast_map_tfm (t : PyStr → FileInfo → FileInfo) (p : PyStr)
    (l : List (PyStr × FileInfo)) :
    lookupLast p (l.map (fun pf => (pf.1, t pf.1 pf.2))) = (lookupLast p l).map (t p) := by
  induction l with
  | nil => rfl
  | cons kv rest ih =>
    obtain ⟨k, v⟩ := kv
    simp only [List.map_cons, lookupLast, ih]
    cases hr : lookupLast p rest with
    | some r => simp
    | none =>
      by_cases hk : k = p
      · subst hk
        simp
      · simp [hk]

theorem alookup_map_keys (p : PyStr) (ks : List PyStr) (v : PyStr → FileInfo) :
    alookup p (ks.map (fun k => (k, v k))) = if p ∈ ks then some (v p) else none := by
  induction ks with
  | nil => simp [alookup]
  | cons k rest ih =>
    simp only [List.map_cons, alookup]
    by_cases hk : k = p
    · subst hk
      simp
    · rw [if_neg hk, ih]
      by_cases hp : p ∈ rest
      · rw [if_pos hp, if_pos (List.mem_cons_of_mem _ hp)]
      · rw [if_neg hp, if_neg (by simp [hp, Ne.symm hk])]

theorem alookup_dictOf (p : PyStr) (raw : List (PyStr × FileInfo)) :
    alookup p (dictOf dummyFile raw) =
      (lookupLast p raw).map (fun e => e) := by
  rw [dictOf, alookup_map_keys]
  by_cases hp : p ∈ keysOf raw
  · rw [if_pos hp]
    cases hl : lookupLast p raw with
    | some v => simp [hl]
    | none =>
      exfalso
      have := (lookupLast_isSome_iff p raw).mpr ((mem_keysOf p raw).mp hp)
      rw [hl] at this
      cases this
  · rw [if_neg hp]
    cases hl : lookupLast p raw with
    | some v =>
      exfalso
      exact hp ((mem_keysOf p raw).mpr ((lookupLast_isSome_iff p raw).mp (by rw [hl]; rfl)))
    | none => rfl

theorem alookup_filterMap_keys (p : PyStr) (ks : List PyStr) (hnd : ks.Nodup)
    (v : PyStr → FileInfo) (c : FileInfo → Bool) (h : FileInfo → PyStr × Int) :
    alookup p (ks.filterMap (fun k => if c (v k) then some (k, h (v k)) else none)) =
      if p ∈ ks ∧ c (v p) = true then some (h (v p)) else none := by
  induction ks with
  | nil => simp [alookup]
  | cons k rest ih =>
    obtain ⟨hknotin, hnd2⟩ := List.nodup_cons.mp hnd
    rw [List.filterMap_cons]
    by_cases hc : c (v k) = true
    · rw [if_pos hc]
      by_cases hk : k = p
      · subst hk
        simp [alookup, hc]
      · show alookup p _ = _
        rw [alookup, if_neg hk, ih hnd2]
        by_cases hp : p ∈ rest ∧ c (v p) = true
        · rw [if_pos hp, if_pos ⟨List.mem_cons_of_mem _ hp.1, hp.2⟩]
        · rw [if_neg hp, if_neg ?_]
          rintro ⟨hmem, hcv⟩
          rcases List.mem_cons.mp hmem with rfl | hmem2
          · exact hk rfl
          · exact hp ⟨hmem2, hcv⟩
    · rw [if_neg hc, ih hnd2]
      by_cases hp : p ∈ rest ∧ c (v p) = true
      · rw [if_pos hp, if_pos ⟨List.mem_cons_of_mem _ hp.1, hp.2⟩]
      · rw [if_neg hp, if_neg ?_]
        rintro ⟨hmem, hcv⟩
        rcases List.mem_cons.mp hmem with rfl | hmem2
        · rw [hcv] at hc
          exact hc rfl
        · exact hp ⟨hmem2, hcv⟩

theorem alookup_existingIdsOf (p : PyStr) (raw : List (PyStr × FileInfo)) :
    alookup p (existingIdsOf raw) =
      match lookupLast p raw with
      | some e =>
        if optStrTruthy e.fileId && optIntTruthy e.messageId then
          some (e.fileId.getD [], e.messageId.getD 0)
        else none
      | none => none := by
  rw [existingIdsOf, dictOf, List.filterMap_map]
  have heq : (fun pi : PyStr × FileInfo =>
      if optStrTruthy pi.2.fileId && optIntTruthy pi.2.messageId then
        some (pi.1, (pi.2.fileId.getD [], pi.2.messageId.getD 0))
      else none) ∘ (fun k => (k, (lookupLast k raw).getD dummyFile)) =
      (fun k => if (optStrTruthy ((lookupLast k raw).getD dummyFile).fileId &&
          optIntTruthy ((lookupLast k raw).getD dummyFile).messageId) then
        some (k, (((lookupLast k raw).getD dummyFile).fileId.getD [],
          ((lookupLast k raw).getD dummyFile).messageId.getD 0)) else none) := rfl
  rw [heq, alookup_filterMap_keys p (keysOf raw) (List.nodup_dedup _)
    (fun k => (lookupLast k raw).getD dummyFile)
    (fun e => optStrTruthy e.fileId && optIntTruthy e.messageId)
    (fun e => (e.fileId.getD [], e.messageId.getD 0))]
  cases hl : lookupLast p raw with
  | some e =>
    have hp : p ∈ keysOf raw :=
      (mem_keysOf p raw).mpr ((lookupLast_isSome_iff p raw).mp (by rw [hl]; rfl))
    by_cases hc : (optStrTruthy e.fileId && optIntTruthy e.messageId) = true
    · rw [if_pos ⟨hp, by simpa using hc⟩]
      show _ = if (optStrTruthy e.fileId && optIntTruthy e.messageId) = true then
        some (e.fileId.getD [], e.messageId.getD 0) else none
      rw [if_pos hc]
      rfl
    · rw [if_neg (fun hand => hc (by simpa using hand.2))]
      show _ = if (optStrTruthy e.fileId && optIntTruthy e.messageId) = true then
        some (e.fileId.getD [], e.messageId.getD 0) else none
      rw [if_neg hc]
  | none =>
    rw [if_neg (fun hand => by
      have := (lookupLast_isSome_iff p raw).mpr ((mem_keysOf p raw).mp hand.1)
      rw [hl] at this
      cases this)]


theorem applyIdsFile_eq_mergeTransform (ids : List (PyStr × (PyStr × Int)))
    (uL : List FileInfo) (base : PyStr) (f : FileInfo) :
    applyIdsFile ids uL base f = mergeTransform ids uL (joinPath base f.fileName) f := rfl

theorem mergeTransform_fileName (ids : List (PyStr × (PyStr × Int))) (uL : List FileInfo)
    (p : PyStr) (f : FileInfo) : (mergeTransform ids uL p f).fileName = f.fileName := by
  cases halk : alookup p ids with
  | none => simp [mergeTransform, halk]
  | some fm =>
    by_cases hu : uL.any (fun uf => decide (uf.relativePath = some p)) = true
    · simp [mergeTransform, halk, hu]
    · simp [mergeTransform, halk, hu]

theorem mergeTransform_relativePath_update (ids : List (PyStr × (PyStr × Int)))
    (uL : List FileInfo) (p : PyStr) (f : FileInfo) (r : Option PyStr) :
    { mergeTransform ids uL p f with relativePath := r } =
      mergeTransform ids uL p { f with relativePath := r } := by
  cases halk : alookup p ids with
  | none => simp [mergeTransform, halk]
  | some fm =>
    by_cases hu : uL.any (fun uf => decide (uf.relativePath = some p)) = true
    · simp [mergeTransform, halk, hu]
    · simp [mergeTransform, halk, hu]

theorem filesWithPaths_applyIds (ids : List (PyStr × (PyStr × Int))) (uL : List FileInfo)
    (base : PyStr) (files : List FileInfo) :
    filesWithPaths base (files.map (applyIdsFile ids uL base)) =
      (filesWithPaths base files).map
        (fun pf => (pf.1, mergeTransform ids uL pf.1 pf.2)) := by
  rw [filesWithPaths, filesWithPaths, List.map_map, List.map_map]
  apply List.map_congr_left
  intro f _
  simp only [Function.comp]
  cases halk : alookup (joinPath base f.fileName) ids with
  | none => simp [applyIdsFile, mergeTransform, halk]
  | some fm =>
    by_cases hu : uL.any
        (fun uf => decide (uf.relativePath = some (joinPath base f.fileName))) = true
    · simp [applyIdsFile, mergeTransform, halk, hu]
    · simp [applyIdsFile, mergeTransform, halk, hu]

/-- Every entry of the extracted path map carries its own key as
`relativePath`. -/
theorem extract_relativePath_aux : ∀ fuel : Nat,
    (∀ base s l, extract_files_with_paths fuel base s = Except.ok l →
      ∀ pf ∈ l, pf.2.relativePath = some pf.1) ∧
    (∀ base subs l, extractSubs fuel base subs = Except.ok l →
      ∀ pf ∈ l, pf.2.relativePath = some pf.1) := by
  intro fuel
  induction fuel with
  | zero =>
    constructor
    · intro base s l h
      simp [extract_files_with_paths] at h
    · intro base subs l h
      cases subs with
      | nil =>
        simp only [extractSubs] at h
        injection h with h
        subst h
        intro pf hpf
        cases hpf
      | cons a rest =>
        obtain ⟨name, sub⟩ := a
        simp [extractSubs, extract_files_with_paths, error_bind] at h
  | succ f ih =>
    have hstruct : ∀ base s l, extract_files_with_paths (f + 1) base s = Except.ok l →
        ∀ pf ∈ l, pf.2.relativePath = some pf.1 := by
      intro base s l h pf hpf
      obtain ⟨files, subs⟩ := s
      simp only [extract_files_with_paths] at h
      cases hr : extractSubs f base subs with
      | error e => rw [hr] at h; cases h
      | ok rest =>
        rw [hr, ok_bind] at h
        injection h with h
        subst h
        rcases List.mem_append.mp hpf with hmem | hmem
        · obtain ⟨g, _, rfl⟩ := List.mem_map.mp hmem
          rfl
        · exact ih.2 base subs rest hr pf hmem
    refine ⟨hstruct, ?_⟩
    intro base subs
    induction subs with
    | nil =>
      intro l h
      simp only [extractSubs] at h
      injection h with h
      subst h
      intro pf hpf
      cases hpf
    | cons a rest ihl =>
      obtain ⟨name, sub⟩ := a
      intro l h pf hpf
      simp only [extractSubs] at h
      cases h1 : extract_files_with_paths (f + 1) (joinPath base name) sub with
      | error e => rw [h1] at h; cases h
      | ok l1 =>
        rw [h1, ok_bind] at h
        cases h2 : extractSubs (f + 1) base rest with
        | error e => rw [h2] at h; cases h
        | ok l2 =>
          rw [h2, ok_bind] at h
          injection h with h
          subst h
          rcases List.mem_append.mp hpf with hmem | hmem
          · exact hstruct _ sub l1 h1 pf hmem
          · exact ihl l2 h2 pf hmem

/-- Extraction commutes with `apply_ids`: the merged tree's path map is
the current tree's path map with `mergeTransform` applied pointwise. -/
theorem extract_applyIds (ids : List (PyStr × (PyStr × Int))) (uL : List FileInfo) :
    ∀ fuel : Nat,
    (∀ base s s', applyIds ids uL fuel base s = Except.ok s' →
      ∃ l, extract_files_with_paths fuel base s = Except.ok l ∧
        extract_files_with_paths fuel base s' =
          Except.ok (l.map (fun pf => (pf.1, mergeTransform ids uL pf.1 pf.2)))) ∧
    (∀ base subs subs', applyIdsSubs ids uL fuel base subs = Except.ok subs' →
      ∃ l, extractSubs fuel base subs = Except.ok l ∧
        extractSubs fuel base subs' =
          Except.ok (l.map (fun pf => (pf.1, mergeTransform ids uL pf.1 pf.2)))) := by
  intro fuel
  induction fuel with
  | zero =>
    constructor
    · intro base s s' h
      simp [applyIds] at h
    · intro base subs subs' h
      cases subs with
      | nil =>
        simp only [applyIdsSubs] at h
        injection h with h
        subst h
        exact ⟨[], rfl, rfl⟩
      | cons a rest =>
        obtain ⟨name, sub⟩ := a
        simp [applyIdsSubs, applyIds, error_bind] at h
  | succ f ih =>
    have hstruct : ∀ base s s', applyIds ids uL (f + 1) base s = Except.ok s' →
        ∃ l, extract_files_with_paths (f + 1) base s = Except.ok l ∧
          extract_files_with_paths (f + 1) base s' =
            Except.ok (l.map (fun pf => (pf.1, mergeTransform ids uL pf.1 pf.2))) := by
      intro base s s' h
      obtain ⟨files, subs⟩ := s
      simp only [applyIds] at h
      cases hr : applyIdsSubs ids uL f base subs with
      | error e => rw [hr] at h; cases h
      | ok subs2 =>
        rw [hr, ok_bind] at h
        injection h with h
        subst h
        obtain ⟨l0, hl0, hl0'⟩ := ih.2 base subs subs2 hr
        refine ⟨filesWithPaths base files ++ l0, ?_, ?_⟩
        · simp only [extract_files_with_paths, hl0, ok_bind]; rfl
        · simp only [extract_files_with_paths, hl0', ok_bind,
            filesWithPaths_applyIds, List.map_append]; rfl
    refine ⟨hstruct, ?_⟩
    intro base subs
    induction subs with
    | nil =>
      intro subs' h
      simp only [applyIdsSubs] at h
      injection h with h
      subst h
      exact ⟨[], rfl, rfl⟩
    | cons a rest ihl =>
      obtain ⟨name, sub⟩ := a
      intro subs' h
      simp only [applyIdsSubs] at h
      cases h1 : applyIds ids uL (f + 1) (joinPath base name) sub with
      | error e => rw [h1] at h; cases h
      | ok s1 =>
        rw [h1, ok_bind] at h
        cases h2 : applyIdsSubs ids uL (f + 1) base rest with
        | error e => rw [h2] at h; cases h
        | ok rest2 =>
          rw [h2, ok_bind] at h
          injection h with h
          subst h
          obtain ⟨l1, hl1, hl1'⟩ := hstruct _ sub s1 h1
          obtain ⟨l2, hl2, hl2'⟩ := ihl rest2 h2
          refine ⟨l1 ++ l2, ?_, ?_⟩
          · simp only [extractSubs, hl1, hl2, ok_bind]; rfl
          · simp only [extractSubs, hl1', hl2', ok_bind, List.map_append]; rfl

theorem keysOf_lookupLast {α : Type} (p : PyStr) (l : List (PyStr × α))
    (h : p ∈ keysOf l) : ∃ e, lookupLast p l = some e := by
  have hs := (lookupLast_isSome_iff p l).mpr ((mem_keysOf p l).mp h)
  cases hl : lookupLast p l with
  | some e => exact ⟨e, rfl⟩
  | none => rw [hl] at hs; cases hs

theorem mem_unchangedPaths_keys (o n : List (PyStr × FileInfo)) (p : PyStr)
    (h : p ∈ unchangedPaths o n) : p ∈ keysOf o ∧ p ∈ keysOf n := by
  have h1 := (List.mem_filter.mp h).1
  have h2 := List.mem_filter.mp h1
  exact ⟨h2.1, (pmem_iff p (keysOf n)).mp h2.2⟩

theorem modified_not_unchanged (o n : List (PyStr × FileInfo)) (p : PyStr)
    (h : p ∈ modifiedPaths o n) : p ∉ unchangedPaths o n := by
  intro hu
  have h1 := (List.mem_filter.mp h).2
  have h2 := (List.mem_filter.mp hu).2
  simp only [decide_eq_true_eq] at h1 h2
  exact h1 h2

theorem mem_addedPaths (o n : List (PyStr × FileInfo)) (p : PyStr)
    (h : p ∈ addedPaths o n) : p ∈ keysOf n ∧ lookupLast p o = none := by
  have h1 := List.mem_filter.mp h
  refine ⟨h1.1, ?_⟩
  cases hl : lookupLast p o with
  | none => rfl
  | some e =>
    exfalso
    have hk : p ∈ keysOf o :=
      (mem_keysOf p o).mpr ((lookupLast_isSome_iff p o).mp (by rw [hl]; rfl))
    have hp := (pmem_iff p (keysOf o)).mpr hk
    have h2 := h1.2
    rw [hp] at h2
    cases h2

theorem mkChanges_unchanged (o n : List (PyStr × FileInfo)) :
    (mkChanges o n).unchanged = (unchangedPaths o n).map (entryAt (dictOf dummyFile o)) := rfl

theorem entryAt_dictOf (p : PyStr) (raw : List (PyStr × FileInfo)) (e : FileInfo)
    (h : lookupLast p raw = some e) : entryAt (dictOf dummyFile raw) p = e := by
  show (alookup p (dictOf dummyFile raw)).getD dummyFile = e
  rw [alookup_dictOf, h]
  rfl

/-- **C6.** Merge preserves identity.  Fix a previous and a current tree
with extracted path maps `prevRaw` and `curRaw`, and let
`merge_with_existing` succeed on the change set computed from those maps.
Then the merged tree's path map exists and (1) every path classified
unchanged whose previous entry carries truthy identifiers appears in it
with the very same `fileId` and `messageId` and with `_skip_upload` set
true; (2) every path classified added or modified maps to its current
entry untouched — it inherits nothing from the previous tree, so its
identifiers stay absent and its skip flag stays false whenever the
current scan produced it that way. -/
theorem C6_merge_preserves_identity
    (prev cur merged : Structure) (prevRaw curRaw : List (PyStr × FileInfo))
    (hprev : extract_files_with_paths topFuel [] prev = Except.ok prevRaw)
    (hcur : extract_files_with_paths topFuel [] cur = Except.ok curRaw)
    (hm : merge_with_existing prev (mkChanges prevRaw curRaw) cur = Except.ok merged) :
    ∃ mergedRaw, extract_files_with_paths topFuel [] merged = Except.ok mergedRaw ∧
      (∀ p e, p ∈ unchangedPaths prevRaw curRaw →
        lookupLast p prevRaw = some e →
        optStrTruthy e.fileId = true → optIntTruthy e.messageId = true →
        ∃ m, lookupLast p mergedRaw = some m ∧
          m.fileId = e.fileId ∧ m.messageId = e.messageId ∧ m.skip_upload = true) ∧
      (∀ p c, (p ∈ addedPaths prevRaw curRaw ∨ p ∈ modifiedPaths prevRaw curRaw) →
        lookupLast p curRaw = some c →
        lookupLast p mergedRaw = some c) := by
  simp only [merge_with_existing] at hm
  rw [hprev, ok_bind] at hm
  obtain ⟨l, hl, hl'⟩ := (extract_applyIds (existingIdsOf prevRaw)
    (mkChanges prevRaw curRaw).unchanged topFuel).1 [] cur merged hm
  rw [hcur] at hl
  injection hl with hl
  subst hl
  refine ⟨_, hl', ?_, ?_⟩
  · intro p e hpU hpe hfid hmid
    have hkeys := mem_unchangedPaths_keys prevRaw curRaw p hpU
    obtain ⟨c, hc⟩ := keysOf_lookupLast p curRaw hkeys.2
    have hrel : e.relativePath = some p :=
      (extract_relativePath_aux topFuel).1 [] prev prevRaw hprev (p, e)
        (lookupLast_mem p prevRaw e hpe)
    have halk : alookup p (existingIdsOf prevRaw) =
        some (e.fileId.getD [], e.messageId.getD 0) := by
      rw [alookup_existingIdsOf, hpe]
      simp [hfid, hmid]
    have hany : ((mkChanges prevRaw curRaw).unchanged).any
        (fun uf => decide (uf.relativePath = some p)) = true := by
      rw [mkChanges_unchanged]
      refine List.any_eq_true.mpr
        ⟨entryAt (dictOf dummyFile prevRaw) p, List.mem_map.mpr ⟨p, hpU, rfl⟩, ?_⟩
      rw [entryAt_dictOf p prevRaw e hpe, hrel]
      exact decide_eq_true rfl
    have htfm : mergeTransform (existingIdsOf prevRaw) (mkChanges prevRaw curRaw).unchanged
        p c = { c with fileId := some (e.fileId.getD []),
                       messageId := some (e.messageId.getD 0), skip_upload := true } := by
      simp [mergeTransform, halk, hany]
    have hfe : e.fileId = some (e.fileId.getD []) := by
      cases hfi : e.fileId with
      | none => rw [hfi] at hfid; cases hfid
      | some s => rfl
    have hme : e.messageId = some (e.messageId.getD 0) := by
      cases hmi : e.messageId with
      | none => rw [hmi] at hmid; cases hmid
      | some n => rfl
    rw [lookupLast_map_tfm, hc]
    exact ⟨_, rfl, by rw [htfm]; exact hfe.symm, by rw [htfm]; exact hme.symm, by rw [htfm]⟩
  · intro p c hor hc
    rw [lookupLast_map_tfm, hc]
    suffices htfm : mergeTransform (existingIdsOf prevRaw)
        (mkChanges prevRaw curRaw).unchanged p c = c by
      exact congrArg some htfm
    rcases hor with hadd | hmod
    · obtain ⟨-, hnone⟩ := mem_addedPaths prevRaw curRaw p hadd
      have halk : alookup p (existingIdsOf prevRaw) = none := by
        rw [alookup_existingIdsOf, hnone]
      simp [mergeTransform, halk]
    · have hnotU : p ∉ unchangedPaths prevRaw curRaw :=
        modified_not_unchanged prevRaw curRaw p hmod
      have hany : ((mkChanges prevRaw curRaw).unchanged).any
          (fun uf => decide (uf.relativePath = some p)) = false := by
        rw [mkChanges_unchanged]
        refine List.any_eq_false.mpr ?_
        intro uf hufmem
        obtain ⟨q, hq, rfl⟩ := List.mem_map.mp hufmem
        have hqk := (mem_unchangedPaths_keys prevRaw curRaw q hq).1
        obtain ⟨e2, he2⟩ := keysOf_lookupLast q prevRaw hqk
        rw [entryAt_dictOf q prevRaw e2 he2]
        have hrel : e2.relativePath = some q :=
          (extract_relativePath_aux topFuel).1 [] prev prevRaw hprev (q, e2)
            (lookupLast_mem q prevRaw e2 he2)
        rw [hrel]
        simp only [decide_eq_true_eq]
        intro h
        injection h with h
        subst h
        exact hnotU hq
      cases halk : alookup p (existingIdsOf prevRaw) with
      | none => simp [mergeTransform, halk]
      | some fm => simp [mergeTransform, halk, hany]

/-- Witness for C6 at a concrete run: previous and current trees both
hold `a.txt` of 100 bytes, the previous one with stored identifiers; the
hypotheses evaluate on these inputs and the conclusion follows. -/
theorem C6_witness :
    extract_files_with_paths topFuel [] C6prev = Except.ok C6prevRaw ∧
    extract_files_with_paths topFuel [] C6cur = Except.ok C6curRaw ∧
    merge_with_existing C6prev (mkChanges C6prevRaw C6curRaw) C6cur = Except.ok C6merged ∧
    (∃ mergedRaw, extract_files_with_paths topFuel [] C6merged = Except.ok mergedRaw ∧
      (∀ p e, p ∈ unchangedPaths C6prevRaw C6curRaw →
        lookupLast p C6prevRaw = some e →
        optStrTruthy e.fileId = true → optIntTruthy e.messageId = true →
        ∃ m, lookupLast p mergedRaw = some m ∧
          m.fileId = e.fileId ∧ m.messageId = e.messageId ∧ m.skip_upload = true) ∧
      (∀ p c, (p ∈ addedPaths C6prevRaw C6curRaw ∨ p ∈ modifiedPaths C6prevRaw C6curRaw) →
        lookupLast p C6curRaw = some c →
        lookupLast p mergedRaw = some c)) :=
  ⟨rfl, rfl, rfl,
    C6_merge_preserves_identity C6prev C6cur C6merged C6prevRaw C6curRaw rfl rfl rfl⟩

end TgUp
